import Mathlib

/-!
Authentication controller

A shallow embedding of `backend/controllers/auth.controller.js`: the seven
request handlers `signup`, `verifyEmail`, `login`, `logout`, `forgotPassword`,
`resetPassword` and `checkAuth`, as pure functions from the user collection
and a request to the new collection and the JSON response.

* The user collection is a list of documents in insertion order; the `_id`
  of a document is its position, so `findById` is indexing and `save` of a
  loaded document writes it back at its position.
* What a handler reads from outside (the clock, `Math.random`, the bcrypt
  salt, `crypto.randomBytes`, whether the awaited welcome mail went out) is
  the `Env` argument.
* The password hasher (`bcryptjs`) is a parameter `Hasher`.
* A response is the status code, the JSON body as `res.json` serialises it,
  and the effect on the `token` cookie.
* The `password` field of a request body is any JSON value or absent
  (`BodyValue`): `bcryptjs` rejects what is not a string, and the handlers
  report the rejection with the library's message. The fields `email` and
  `name` reach only the store, whose schema is not part of the controller;
  they are JSON strings or absent (`Option String`). The path parameter of
  `resetPassword` and the `code` of `verifyEmail` are strings.
* The store, the hasher on a string and the cookie issuer do not fail. The
  mails that are sent without being awaited (verification, reset link, reset
  confirmation) touch neither the store nor the response and are left out;
  the welcome mail is awaited inside the `try` block, so its outcome is an
  input.
* JavaScript numbers are binary64: the verification code is computed with the
  product and the sum rounded as IEEE 754 rounds them (`roundDouble`).
-/

namespace AuthController

/-! ## Data model -/

/-- Modelled from the spec: the `User` schema of `models/user.model.js`, with
the field names the controller reads and writes. Timestamps are milliseconds
since the epoch; an unset optional field is `none`. The creation and update
timestamps that the store maintains on its own are not part of the record. -/
structure User where
  email : String
  password : String
  name : String
  lastlogin : Option Nat
  isVerified : Bool
  resetPasswordToken : Option String
  resetPasswordExpiresAt : Option Nat
  verificationToken : Option String
  verificationTokenExpiresAt : Option Nat
  deriving DecidableEq, Repr

/-- The user collection, in insertion order; a document's `_id` is its index. -/
abbrev Store := List User

/-- The password hasher `bcryptjs`: `hash password 10` with the salt it draws,
and `compare password stored`. -/
structure Hasher where
  hash : String → Nat → String
  compare : String → String → Bool

/-- What one request reads from outside the store. `random` is the numerator
of `Math.random()` over `2 ^ 53`, `randomBytes` is
`crypto.randomBytes(20).toString("hex")`, `welcomeEmailSent` tells whether the
awaited `sendWelcomeEmail` resolved. -/
structure Env where
  now : Nat
  random : Nat
  salt : Nat
  randomBytes : String
  welcomeEmailSent : Bool
  deriving DecidableEq, Repr

/-! ## JSON responses -/

/-- A scalar of a response body; `undefined` is the JavaScript value that
`JSON.stringify` leaves out. -/
inductive JAtom where
  | undefined
  | bool (b : Bool)
  | num (n : Nat)
  | str (s : String)
  deriving DecidableEq, Repr

/-- An object of scalars, as an ordered list of properties. -/
abbrev JObj := List (String × JAtom)

/-- A property value of a response body: a scalar or a nested object. -/
inductive JVal where
  | atom (a : JAtom)
  | obj (fields : JObj)
  deriving DecidableEq, Repr

/-- The effect of a response on the `token` cookie. -/
inductive Cookie where
  | unchanged
  | issued (userId : Nat)
  | cleared
  deriving DecidableEq, Repr

/-- An HTTP response: status, serialised JSON body, cookie effect. -/
structure Response where
  status : Nat
  body : List (String × JVal)
  cookie : Cookie
  deriving DecidableEq, Repr

/-- The object literal `{...o, k: v}`: `k` keeps its place when `o` has it,
and is added at the end otherwise. -/
def assign (o : JObj) (k : String) (v : JAtom) : JObj :=
  if o.any (fun kv => kv.1 == k) then
    o.map (fun kv => if kv.1 == k then (k, v) else kv)
  else o ++ [(k, v)]

/-- `JSON.stringify` of an object of scalars: properties whose value is
`undefined` are left out. -/
def stringifyObj (o : JObj) : JObj :=
  o.filter (fun kv => kv.2 != JAtom.undefined)

/-- The body `res.json` sends: `undefined` properties are left out, at the top
level and inside a nested object. -/
def json (b : List (String × JVal)) : List (String × JVal) :=
  b.filterMap (fun kv =>
    match kv.2 with
    | JVal.atom JAtom.undefined => none
    | JVal.atom a => some (kv.1, JVal.atom a)
    | JVal.obj o => some (kv.1, JVal.obj (stringifyObj o)))

/-- The `success` property of a response body. -/
def Response.success (r : Response) : Option Bool :=
  match r.body.lookup "success" with
  | some (JVal.atom (JAtom.bool b)) => some b
  | _ => none

/-- The `message` property of a response body. -/
def Response.message (r : Response) : Option String :=
  match r.body.lookup "message" with
  | some (JVal.atom (JAtom.str m)) => some m
  | _ => none

/-- The `user` property of a response body. -/
def Response.user (r : Response) : Option JObj :=
  match r.body.lookup "user" with
  | some (JVal.obj o) => some o
  | _ => none

/-- The response `res.status(status).json({success: false, message})`. -/
def fail (status : Nat) (message : String) : Response :=
  { status := status
    body := json [("success", JVal.atom (JAtom.bool false)),
                  ("message", JVal.atom (JAtom.str message))]
    cookie := Cookie.unchanged }

/-- An optional string field of a document as a JavaScript value. -/
def optStr : Option String → JAtom
  | some s => JAtom.str s
  | none => JAtom.undefined

/-- An optional timestamp field of a document as a JavaScript value. -/
def optNum : Option Nat → JAtom
  | some n => JAtom.num n
  | none => JAtom.undefined

/-- The raw document `user._doc` of the user stored under `id`. -/
def User.doc (id : Nat) (u : User) : JObj :=
  [("_id", JAtom.num id),
   ("email", JAtom.str u.email),
   ("password", JAtom.str u.password),
   ("name", JAtom.str u.name),
   ("lastlogin", optNum u.lastlogin),
   ("isVerified", JAtom.bool u.isVerified),
   ("resetPasswordToken", optStr u.resetPasswordToken),
   ("resetPasswordExpiresAt", optNum u.resetPasswordExpiresAt),
   ("verificationToken", optStr u.verificationToken),
   ("verificationTokenExpiresAt", optNum u.verificationTokenExpiresAt)]

/-- The user object `{...user._doc, password: undefined}` of a response. -/
def User.sanitized (id : Nat) (u : User) : JObj :=
  assign (u.doc id) "password" JAtom.undefined

/-- The document a query with `.select("-password")` returns. -/
def User.selectWithoutPassword (id : Nat) (u : User) : JObj :=
  (u.doc id).filter (fun kv => kv.1 != "password")

/-- Whether a response body has a property named `password`, at the top level
or inside a nested object. -/
def hasPasswordField (body : List (String × JVal)) : Bool :=
  body.any (fun kv =>
    kv.1 == "password" ||
      match kv.2 with
      | JVal.obj o => o.any (fun f => f.1 == "password")
      | JVal.atom _ => false)

/-! ## Store queries -/

/-- The first document from position `i` on that satisfies `p`, with its
position. -/
def findOneFrom (p : User → Bool) : Nat → List User → Option (Nat × User)
  | _, [] => none
  | i, u :: us => if p u then some (i, u) else findOneFrom p (i + 1) us

/-- The query `User.findOne(filter)`: the first matching document and its
`_id`. -/
def findOne (p : User → Bool) (s : Store) : Option (Nat × User) :=
  findOneFrom p 0 s

/-- The filter `{email}`. -/
def byEmail (email : String) (u : User) : Bool :=
  u.email == email

/-- The condition `{$gt: now}` on an optional timestamp field: an unset field
does not match. -/
def gt (now : Nat) : Option Nat → Bool
  | some t => decide (now < t)
  | none => false

/-- The filter `{verificationToken: code, verificationTokenExpiresAt: {$gt: now}}`. -/
def byVerificationToken (code : String) (now : Nat) (u : User) : Bool :=
  u.verificationToken == some code && gt now u.verificationTokenExpiresAt

/-- The filter `{resetPasswordToken: token, resetPasswordExpiresAt: {$gt: now}}`. -/
def byResetToken (token : String) (now : Nat) (u : User) : Bool :=
  u.resetPasswordToken == some token && gt now u.resetPasswordExpiresAt

/-- A request field that passes the test `!field`: present and not the empty
string. -/
def truthy : Option String → Option String
  | some s => if s = "" then none else some s
  | none => none

/-- The value of the `password` field of a request body: absent, or any JSON
value. A JSON number is an integer here; a fraction behaves as a non-zero
integer does. -/
inductive BodyValue where
  | undefined
  | null
  | bool (b : Bool)
  | num (n : Int)
  | str (s : String)
  | object
  deriving DecidableEq, Repr

/-- The JavaScript `typeof` of a body value. -/
def BodyValue.typeof : BodyValue → String
  | BodyValue.undefined => "undefined"
  | BodyValue.null => "object"
  | BodyValue.bool _ => "boolean"
  | BodyValue.num _ => "number"
  | BodyValue.str _ => "string"
  | BodyValue.object => "object"

/-- Whether a body value passes the test `!value`, that is, is truthy. -/
def BodyValue.truthy : BodyValue → Bool
  | BodyValue.undefined => false
  | BodyValue.null => false
  | BodyValue.bool b => b
  | BodyValue.num n => n != 0
  | BodyValue.str s => s != ""
  | BodyValue.object => true

/-- The call `bcryptjs.hash(password, 10)`: it resolves to the hash of a
string and rejects any other value with the library's message. -/
def bcryptHash (H : Hasher) (password : BodyValue) (salt : Nat) : Except String String :=
  match password with
  | BodyValue.str p => Except.ok (H.hash p salt)
  | v => Except.error ("Illegal arguments: " ++ v.typeof ++ ", number")

/-- The call `bcryptjs.compare(password, stored)`: it resolves to the verdict
for a string and rejects any other value with the library's message. -/
def bcryptCompare (H : Hasher) (password : BodyValue) (stored : String) :
    Except String Bool :=
  match password with
  | BodyValue.str p => Except.ok (H.compare p stored)
  | v => Except.error ("Illegal arguments: " ++ v.typeof ++ ", string")

/-! ## The verification code -/

/-- The number of low bits a binary64 significand cannot hold of `n`: the
least `s` with `n / 2 ^ s < 2 ^ 53`, searched with `fuel` halvings. -/
def excessBits : Nat → Nat → Nat
  | 0, _ => 0
  | fuel + 1, n => if n < 2 ^ 53 then 0 else excessBits fuel (n / 2) + 1

/-- Rounding to binary64, nearest with ties to even, of the real number
`n / 2 ^ 53`; the result is again a numerator over `2 ^ 53`. -/
def roundDouble (n : Nat) : Nat :=
  let s := excessBits n n
  let q := n / 2 ^ s
  let r := n % 2 ^ s
  if 2 * r < 2 ^ s then q * 2 ^ s
  else if 2 * r = 2 ^ s ∧ q % 2 = 0 then q * 2 ^ s
  else (q + 1) * 2 ^ s

/-- The number `Math.floor(100000 + Math.random() * 900000)` when
`Math.random()` returns `k / 2 ^ 53`: the product and the sum are each rounded
to binary64, as JavaScript evaluates them. -/
def verificationTokenNumber (k : Nat) : Nat :=
  roundDouble (100000 * 2 ^ 53 + roundDouble (k * 900000)) / 2 ^ 53

/-- The `verificationToken` of signup: the number above, `.toString()`. -/
def newVerificationToken (k : Nat) : String :=
  toString (verificationTokenNumber k)

/-- The number that the formula `floor(100000 + 900000 * r)` names when it is
read in exact arithmetic, for the draw `r = k / 2 ^ 53`. -/
def exactFloorNumber (k : Nat) : Nat :=
  (100000 * 2 ^ 53 + 900000 * k) / 2 ^ 53

/-! ## The handlers -/

/-- The handler `signup`, for the body fields `email`, `password`, `name`. A
password that is truthy but not a string makes `bcryptjs.hash` reject, which
the handler reports with the library's message. -/
def signup (H : Hasher) (env : Env) (s : Store)
    (email : Option String) (password : BodyValue) (name : Option String) :
    Store × Response :=
  match truthy email, password.truthy, truthy name with
  | some email, true, some name =>
    match findOne (byEmail email) s with
    | some _ => (s, fail 400 "User already exists")
    | none =>
      match bcryptHash H password env.salt with
      | Except.error message => (s, fail 400 message)
      | Except.ok hashedPassword =>
        let verificationToken := newVerificationToken env.random
        let user : User :=
          { email := email
            password := hashedPassword
            name := name
            lastlogin := none
            isVerified := false
            resetPasswordToken := none
            resetPasswordExpiresAt := none
            verificationToken := some verificationToken
            verificationTokenExpiresAt := some (env.now + 24 * 60 * 60 * 1000) }
        (s ++ [user],
          { status := 201
            body := json [("success", JVal.atom (JAtom.bool true)),
                          ("message", JVal.atom (JAtom.str "User created successfully")),
                          ("user", JVal.obj (user.sanitized s.length))]
            cookie := Cookie.issued s.length })
  | _, _, _ => (s, fail 400 "All fields are required")

/-- The handler `verifyEmail`, for the body field `code`. -/
def verifyEmail (env : Env) (s : Store) (code : String) : Store × Response :=
  match findOne (byVerificationToken code env.now) s with
  | none => (s, fail 400 "Invalid or expired verification code")
  | some (id, user) =>
    let user : User :=
      { user with
        isVerified := true
        verificationToken := none
        verificationTokenExpiresAt := none }
    let s := s.set id user
    if env.welcomeEmailSent then
      (s,
        { status := 200
          body := json [("success", JVal.atom (JAtom.bool true)),
                        ("message", JVal.atom (JAtom.str "Email verified successfully")),
                        ("user", JVal.obj (user.sanitized id))]
          cookie := Cookie.unchanged })
    else (s, fail 500 "server error")

/-- The handler `login`, for the body fields `email`, `password`. A password
that is truthy but not a string makes `bcryptjs.compare` reject once a user
has been found, which the handler reports with the library's message. -/
def login (H : Hasher) (env : Env) (s : Store)
    (email : Option String) (password : BodyValue) : Store × Response :=
  match truthy email, password.truthy with
  | some email, true =>
    match findOne (byEmail email) s with
    | none => (s, fail 400 "Invalid credentials")
    | some (id, user) =>
      match bcryptCompare H password user.password with
      | Except.error message => (s, fail 400 message)
      | Except.ok isPasswordValid =>
        if isPasswordValid then
          let user : User := { user with lastlogin := some env.now }
          (s.set id user,
            { status := 200
              body := json [("success", JVal.atom (JAtom.bool true)),
                            ("message", JVal.atom (JAtom.str "logged in successfully")),
                            ("user", JVal.obj (user.sanitized id))]
              cookie := Cookie.issued id })
        else (s, fail 400 "Invalid credentials")
  | _, _ => (s, fail 400 "All fields are required")

/-- The handler `logout`. -/
def logout (s : Store) : Store × Response :=
  (s,
    { status := 200
      body := json [("success", JVal.atom (JAtom.bool true)),
                    ("message", JVal.atom (JAtom.str "Logged out successfully"))]
      cookie := Cookie.cleared })

/-- The handler `forgotPassword`, for the body field `email`. -/
def forgotPassword (env : Env) (s : Store) (email : Option String) :
    Store × Response :=
  match truthy email with
  | none => (s, fail 400 "All fields are required")
  | some email =>
    match findOne (byEmail email) s with
    | none => (s, fail 400 "Invaild email")
    | some (id, user) =>
      let resetToken := env.randomBytes
      let resetTokenExpiresAt := env.now + 1 * 60 * 60 * 1000
      let user : User :=
        { user with
          resetPasswordToken := some resetToken
          resetPasswordExpiresAt := some resetTokenExpiresAt }
      (s.set id user,
        { status := 200
          body := json [("success", JVal.atom (JAtom.bool true)),
                        ("message", JVal.atom (JAtom.str "Password reset link sent to your email"))]
          cookie := Cookie.unchanged })

/-- The handler `resetPassword`, for the path parameter `token` and the body
field `password`. A password that is missing or not a string makes
`bcryptjs.hash` reject, which the handler reports with the library's
message. -/
def resetPassword (H : Hasher) (env : Env) (s : Store)
    (token : String) (password : BodyValue) : Store × Response :=
  match findOne (byResetToken token env.now) s with
  | none => (s, fail 400 "Invalid or expired reset token")
  | some (id, user) =>
    match bcryptHash H password env.salt with
    | Except.error message => (s, fail 400 message)
    | Except.ok hashedPassword =>
      let user : User :=
        { user with
          password := hashedPassword
          resetPasswordToken := none
          resetPasswordExpiresAt := none }
      (s.set id user,
        { status := 200
          body := json [("success", JVal.atom (JAtom.bool true)),
                        ("message", JVal.atom (JAtom.str "Password reset successfully"))]
          cookie := Cookie.unchanged })

/-- The handler `checkAuth`, for the `userId` the session middleware put on
the request. -/
def checkAuth (s : Store) (userId : Nat) : Store × Response :=
  match s[userId]? with
  | none => (s, fail 400 "User not found")
  | some user =>
    (s,
      { status := 200
        body := json [("success", JVal.atom (JAtom.bool true)),
                      ("user", JVal.obj (user.selectWithoutPassword userId))]
        cookie := Cookie.unchanged })

/-- A request to one of the seven operations. -/
inductive Request where
  | signup (email : Option String) (password : BodyValue) (name : Option String)
  | verifyEmail (code : String)
  | login (email : Option String) (password : BodyValue)
  | logout
  | forgotPassword (email : Option String)
  | resetPassword (token : String) (password : BodyValue)
  | checkAuth (userId : Nat)
  deriving DecidableEq, Repr

/-- The controller: one request handled against the store. -/
def handle (H : Hasher) (env : Env) (s : Store) : Request → Store × Response
  | Request.signup email password name => signup H env s email password name
  | Request.verifyEmail code => verifyEmail env s code
  | Request.login email password => login H env s email password
  | Request.logout => logout s
  | Request.forgotPassword email => forgotPassword env s email
  | Request.resetPassword token password => resetPassword H env s token password
  | Request.checkAuth userId => checkAuth s userId

/-- The store after a sequence of requests handled one at a time, each with
its own environment. -/
def run (H : Hasher) (s : Store) : List (Env × Request) → Store
  | [] => s
  | (env, req) :: rest => run H (handle H env s req).1 rest

/-- The `_id` of the user whose verification token `verifyEmail` accepts for
`code`: the user its lookup returns, if any. -/
def verifyEmailMatch (env : Env) (s : Store) (code : String) : Option Nat :=
  (findOne (byVerificationToken code env.now) s).map Prod.fst

/-- The `_id` of the user whose reset token `resetPassword` accepts for
`token`: the user its lookup returns, if any. -/
def resetPasswordMatch (env : Env) (s : Store) (token : String) : Option Nat :=
  (findOne (byResetToken token env.now) s).map Prod.fst

/-! ## Store invariants -/

/-- Email uniqueness: no two documents of the store share an email, compared
as strings. -/
def EmailUnique (s : Store) : Prop :=
  (s.map User.email).Nodup

instance (s : Store) : Decidable (EmailUnique s) := by
  unfold EmailUnique; infer_instance

/-- Each token of a user is stored together with its expiry: the
verification token is unset exactly when its expiry is, and so is the reset
token. -/
def TokensPaired (u : User) : Prop :=
  (u.verificationToken = none ↔ u.verificationTokenExpiresAt = none) ∧
    (u.resetPasswordToken = none ↔ u.resetPasswordExpiresAt = none)

instance (u : User) : Decidable (TokensPaired u) := by
  unfold TokensPaired; infer_instance

/-- The requests of a trace are handled at non-decreasing times. -/
def timesNonDecreasing (trace : List (Env × Request)) : Prop :=
  (trace.map (fun x => x.1.now)).Pairwise (fun a b => a ≤ b)

instance (trace : List (Env × Request)) : Decidable (timesNonDecreasing trace) := by
  unfold timesNonDecreasing; infer_instance

/-! ## Example data -/

/-- A toy hasher for concrete runs: the hash of `p` is `"h:" ++ p`. -/
def toyHasher : Hasher :=
  { hash := fun p _ => "h:" ++ p
    compare := fun p h => h == "h:" ++ p }

/-- A fresh unverified user holding the verification code `123456` until
time `1000`. -/
def alice : User :=
  { email := "a@x.com"
    password := "h:pw123456"
    name := "A"
    lastlogin := none
    isVerified := false
    resetPasswordToken := none
    resetPasswordExpiresAt := none
    verificationToken := some "123456"
    verificationTokenExpiresAt := some 1000 }

/-- A verified user holding the reset token `tok` until time `1000`. -/
def bob : User :=
  { email := "b@x.com"
    password := "h:old"
    name := "B"
    lastlogin := none
    isVerified := true
    resetPasswordToken := some "tok"
    resetPasswordExpiresAt := some 1000
    verificationToken := none
    verificationTokenExpiresAt := none }

/-- Another user holding the same reset token `tok` until time `1000`. -/
def carol : User :=
  { bob with email := "c@x.com", name := "C" }

/-- An environment at time `now` in which the welcome mail goes out or not. -/
def envAt (now : Nat) (welcomeEmailSent : Bool) : Env :=
  { now := now
    random := 0
    salt := 0
    randomBytes := "00112233445566778899aabbccddeeff00112233"
    welcomeEmailSent := welcomeEmailSent }

/-- A signup at time 0 followed by a logout at the very millisecond the
verification code expires. -/
def staleTrace : List (Env × Request) :=
  [(envAt 0 true,
     Request.signup (some "a@x.com") (BodyValue.str "pw123456") (some "A")),
   (envAt 86400000 true, Request.logout)]

/-- A user signs up, asks for a reset link and resets the password to the
empty string. -/
def emptyPasswordTrace : List (Env × Request) :=
  [(envAt 0 true, Request.signup (some "b@x.com") (BodyValue.str "secret") (some "B")),
   (envAt 1 true, Request.forgotPassword (some "b@x.com")),
   (envAt 2 true,
     Request.resetPassword "00112233445566778899aabbccddeeff00112233" (BodyValue.str ""))]

/-- Two users sign up with the same draw, so both hold the code `100000`. -/
def sharedCodeTrace : List (Env × Request) :=
  [(envAt 0 true, Request.signup (some "a@x.com") (BodyValue.str "pw123456") (some "A")),
   (envAt 1000 true, Request.signup (some "b@x.com") (BodyValue.str "secret") (some "B"))]

/-- An environment whose draw `Math.random()` is `246366915615510 / 2 ^ 53`. -/
def envRoundsUp : Env :=
  { envAt 0 true with random := 246366915615510 }

/-! ## Store queries: basic facts -/

theorem findOneFrom_eq_none (p : User → Bool) (i : Nat) (s : List User) :
    findOneFrom p i s = none ↔ ∀ u ∈ s, p u = false := by
  induction s generalizing i with
  | nil => simp [findOneFrom]
  | cons u us ih =>
    by_cases h : p u = true
    · simp [findOneFrom, h]
    · simp [findOneFrom, h, ih]

theorem findOneFrom_eq_some (p : User → Bool) (i : Nat) (s : List User)
    (j : Nat) (u : User) (h : findOneFrom p i s = some (j, u)) :
    i ≤ j ∧ s[j - i]? = some u ∧ p u = true ∧
      ∀ k, k < j - i → ∀ v, s[k]? = some v → p v = false := by
  induction s generalizing i with
  | nil => simp [findOneFrom] at h
  | cons w ws ih =>
    by_cases hw : p w = true
    · simp only [findOneFrom, hw, if_true, Option.some.injEq, Prod.mk.injEq] at h
      obtain ⟨rfl, rfl⟩ := h
      simp [hw]
    · simp only [findOneFrom, hw] at h
      obtain ⟨h1, h2, h3, h4⟩ := ih (i + 1) h
      have hji : j - i = (j - (i + 1)) + 1 := by omega
      refine ⟨by omega, ?_, h3, ?_⟩
      · rw [hji]; simpa using h2
      · intro k hk v hv
        cases k with
        | zero =>
          simp only [List.getElem?_cons_zero, Option.some.injEq] at hv
          subst hv
          simpa using hw
        | succ k =>
          simp only [List.getElem?_cons_succ] at hv
          exact h4 k (by omega) v hv

theorem findOne_eq_none (p : User → Bool) (s : Store) :
    findOne p s = none ↔ ∀ u ∈ s, p u = false :=
  findOneFrom_eq_none p 0 s

theorem findOne_eq_some (p : User → Bool) (s : Store) (j : Nat) (u : User)
    (h : findOne p s = some (j, u)) :
    s[j]? = some u ∧ p u = true ∧ ∀ k, k < j → ∀ v, s[k]? = some v → p v = false := by
  obtain ⟨_, h2, h3, h4⟩ := findOneFrom_eq_some p 0 s j u h
  exact ⟨by simpa using h2, h3, by simpa using h4⟩

theorem findOne_mem (p : User → Bool) (s : Store) (j : Nat) (u : User)
    (h : findOne p s = some (j, u)) : u ∈ s ∧ j < s.length := by
  have h1 := (findOne_eq_some p s j u h).1
  obtain ⟨hlt, hget⟩ := List.getElem?_eq_some_iff.mp h1
  exact ⟨hget ▸ List.getElem_mem hlt, hlt⟩

theorem findOneFrom_of_first (p : User → Bool) (i : Nat) (s : List User)
    (j : Nat) (u : User) (hget : s[j]? = some u) (hp : p u = true)
    (hfirst : ∀ k, k < j → ∀ v, s[k]? = some v → p v = false) :
    findOneFrom p i s = some (i + j, u) := by
  induction s generalizing i j with
  | nil => simp at hget
  | cons w ws ih =>
    cases j with
    | zero =>
      simp only [List.getElem?_cons_zero, Option.some.injEq] at hget
      subst hget
      simp [findOneFrom, hp]
    | succ j =>
      have hw : p w = false := hfirst 0 (by omega) w (by simp)
      simp only [List.getElem?_cons_succ] at hget
      have := ih (i + 1) j hget (fun k hk v hv => hfirst (k + 1) (by omega) v (by simpa using hv))
      simp only [findOneFrom, hw]
      rw [this]
      simp [Nat.add_assoc, Nat.add_comm 1 j]

theorem findOne_of_first (p : User → Bool) (s : Store) (j : Nat) (u : User)
    (hget : s[j]? = some u) (hp : p u = true)
    (hfirst : ∀ k, k < j → ∀ v, s[k]? = some v → p v = false) :
    findOne p s = some (j, u) := by
  have := findOneFrom_of_first p 0 s j u hget hp hfirst
  simpa [findOne] using this

theorem mem_set_cases (s : Store) (id : Nat) (u v : User) (h : v ∈ s.set id u) :
    v = u ∨ ∃ k, k ≠ id ∧ s[k]? = some v := by
  obtain ⟨k, hk⟩ := List.mem_iff_getElem?.mp h
  rw [List.getElem?_set] at hk
  by_cases hik : id = k
  · subst hik
    simp only [if_true] at hk
    split at hk
    · left; simpa using hk.symm
    · simp at hk
  · simp only [hik, if_false] at hk
    exact Or.inr ⟨k, fun h => hik h.symm, hk⟩

theorem gt_eq_true (now : Nat) (e : Option Nat) :
    gt now e = true ↔ ∃ t, e = some t ∧ now < t := by
  cases e <;> simp [gt]

theorem byEmail_eq_true (email : String) (u : User) :
    byEmail email u = true ↔ u.email = email := by
  simp [byEmail]

theorem byVerificationToken_eq_true (code : String) (now : Nat) (u : User) :
    byVerificationToken code now u = true ↔
      u.verificationToken = some code ∧
        ∃ t, u.verificationTokenExpiresAt = some t ∧ now < t := by
  simp [byVerificationToken, gt_eq_true]

theorem byResetToken_eq_true (token : String) (now : Nat) (u : User) :
    byResetToken token now u = true ↔
      u.resetPasswordToken = some token ∧
        ∃ t, u.resetPasswordExpiresAt = some t ∧ now < t := by
  simp [byResetToken, gt_eq_true]

theorem findOne_byEmail_isSome (s : Store) (email : String)
    (h : ∃ u ∈ s, u.email = email) : ∃ r, findOne (byEmail email) s = some r := by
  cases hf : findOne (byEmail email) s with
  | some r => exact ⟨r, rfl⟩
  | none =>
    obtain ⟨u, hu, he⟩ := h
    have := (findOne_eq_none _ s).mp hf u hu
    simp [byEmail, he] at this

theorem emailUnique_eq (s : Store) (h : EmailUnique s) (u v : User)
    (hu : u ∈ s) (hv : v ∈ s) (he : u.email = v.email) : u = v :=
  List.inj_on_of_nodup_map h hu hv he

theorem map_email_set (s : Store) (id : Nat) (user u : User)
    (hget : s[id]? = some user) (he : u.email = user.email) :
    (s.set id u).map User.email = s.map User.email := by
  induction s generalizing id with
  | nil => simp
  | cons w ws ih =>
    cases id with
    | zero =>
      simp only [List.getElem?_cons_zero, Option.some.injEq] at hget
      subst hget
      simp [he]
    | succ id =>
      simp only [List.getElem?_cons_succ] at hget
      simp [ih id hget]

theorem truthy_some (x : String) (h : x ≠ "") : truthy (some x) = some x := by
  simp [truthy, h]

theorem truthy_eq_some (x : Option String) (y : String) (h : truthy x = some y) :
    x = some y ∧ y ≠ "" := by
  cases x with
  | none => simp [truthy] at h
  | some v =>
    by_cases hv : v = ""
    · simp [truthy, hv] at h
    · simp only [truthy, hv, if_false, Option.some.injEq] at h
      subst h
      exact ⟨rfl, hv⟩

theorem truthy_str (p : String) (h : p ≠ "") : (BodyValue.str p).truthy = true := by
  simp [BodyValue.truthy, h]

theorem bcryptHash_str (H : Hasher) (p : String) (salt : Nat) :
    bcryptHash H (BodyValue.str p) salt = Except.ok (H.hash p salt) := rfl

theorem bcryptCompare_str (H : Hasher) (p stored : String) :
    bcryptCompare H (BodyValue.str p) stored = Except.ok (H.compare p stored) := rfl

theorem bcryptHash_ok (H : Hasher) (password : BodyValue) (salt : Nat) (h : String)
    (hok : bcryptHash H password salt = Except.ok h) :
    ∃ p, password = BodyValue.str p ∧ h = H.hash p salt := by
  cases password <;> simp [bcryptHash] at hok
  exact ⟨_, rfl, hok.symm⟩

theorem bcryptCompare_ok (H : Hasher) (password : BodyValue) (stored : String) (b : Bool)
    (hok : bcryptCompare H password stored = Except.ok b) :
    ∃ p, password = BodyValue.str p ∧ b = H.compare p stored := by
  cases password <;> simp [bcryptCompare] at hok
  exact ⟨_, rfl, hok.symm⟩

/-! ## Response bodies: basic facts -/

theorem fail_status (status : Nat) (message : String) :
    (fail status message).status = status := rfl

theorem fail_success (status : Nat) (message : String) :
    (fail status message).success = some false := rfl

theorem fail_message (status : Nat) (message : String) :
    (fail status message).message = some message := by
  simp [fail, json, Response.message, List.lookup]

theorem fail_no_password (status : Nat) (message : String) :
    hasPasswordField (fail status message).body = false ∧
      (fail status message).user = none := by
  simp [fail, json, hasPasswordField, Response.user, List.lookup]

theorem stringify_sanitized (id : Nat) (u : User) :
    stringifyObj (u.sanitized id) = stringifyObj (u.selectWithoutPassword id) := by
  simp [User.sanitized, User.selectWithoutPassword, User.doc, assign, stringifyObj,
    List.filter_cons]

theorem stringify_select_no_password (id : Nat) (u : User) :
    (stringifyObj (u.selectWithoutPassword id)).any (fun f => f.1 == "password") = false := by
  simp only [stringifyObj, User.selectWithoutPassword, List.filter_filter, List.any_filter]
  simp [User.doc]

theorem body_with_user (message : String) (id : Nat) (u : User) :
    json [("success", JVal.atom (JAtom.bool true)),
          ("message", JVal.atom (JAtom.str message)),
          ("user", JVal.obj (u.sanitized id))] =
      [("success", JVal.atom (JAtom.bool true)),
       ("message", JVal.atom (JAtom.str message)),
       ("user", JVal.obj (stringifyObj (u.selectWithoutPassword id)))] := by
  simp [json, stringify_sanitized]

theorem with_user_no_password (status : Nat) (message : String) (id : Nat) (u : User)
    (c : Cookie) :
    hasPasswordField
        ({ status := status
           body := json [("success", JVal.atom (JAtom.bool true)),
                         ("message", JVal.atom (JAtom.str message)),
                         ("user", JVal.obj (u.sanitized id))]
           cookie := c } : Response).body = false ∧
      ({ status := status
         body := json [("success", JVal.atom (JAtom.bool true)),
                       ("message", JVal.atom (JAtom.str message)),
                       ("user", JVal.obj (u.sanitized id))]
         cookie := c } : Response).user =
        some (stringifyObj (u.selectWithoutPassword id)) := by
  rw [body_with_user]
  constructor
  · have := stringify_select_no_password id u
    simp [hasPasswordField, this]
  · simp [Response.user, List.lookup]

/-! ## How a request changes the store -/

/-- Signup either rejects with status 400 and leaves the store alone, or
appends the new unverified user and answers 201. -/
theorem signup_cases (H : Hasher) (env : Env) (s : Store)
    (email : Option String) (password : BodyValue) (name : Option String) :
    ((signup H env s email password name).1 = s ∧
        (signup H env s email password name).2.status = 400 ∧
        (signup H env s email password name).2.success = some false) ∨
      ∃ e p n, email = some e ∧ password = BodyValue.str p ∧ name = some n ∧
        e ≠ "" ∧ p ≠ "" ∧ n ≠ "" ∧ (∀ u ∈ s, u.email ≠ e) ∧
        (signup H env s email password name).1 =
          s ++ [{ email := e
                  password := H.hash p env.salt
                  name := n
                  lastlogin := none
                  isVerified := false
                  resetPasswordToken := none
                  resetPasswordExpiresAt := none
                  verificationToken := some (newVerificationToken env.random)
                  verificationTokenExpiresAt := some (env.now + 24 * 60 * 60 * 1000) }] ∧
        (signup H env s email password name).2.status = 201 ∧
        (signup H env s email password name).2.user =
          some (stringifyObj (User.selectWithoutPassword s.length
            { email := e
              password := H.hash p env.salt
              name := n
              lastlogin := none
              isVerified := false
              resetPasswordToken := none
              resetPasswordExpiresAt := none
              verificationToken := some (newVerificationToken env.random)
              verificationTokenExpiresAt := some (env.now + 24 * 60 * 60 * 1000) })) := by
  unfold signup
  split
  · rename_i e n he hp hn
    obtain ⟨he1, he2⟩ := truthy_eq_some _ _ he
    obtain ⟨hn1, hn2⟩ := truthy_eq_some _ _ hn
    split
    · exact Or.inl ⟨rfl, rfl, rfl⟩
    · rename_i hf
      have hnone := (findOne_eq_none _ s).mp hf
      split
      · exact Or.inl ⟨rfl, rfl, rfl⟩
      · rename_i hashed hok
        obtain ⟨p, hp1, hh⟩ := bcryptHash_ok H password env.salt hashed hok
        subst hp1
        subst hh
        have hp2 : p ≠ "" := by
          intro h0
          subst h0
          simp [BodyValue.truthy] at hp
        refine Or.inr ⟨e, p, n, he1, rfl, hn1, he2, hp2, hn2, ?_, rfl, rfl, ?_⟩
        · intro u hu hue
          have := hnone u hu
          rw [(byEmail_eq_true e u).mpr hue] at this
          exact absurd this (by decide)
        · exact (with_user_no_password _ _ _ _ _).2
  · exact Or.inl ⟨rfl, rfl, rfl⟩

/-- A request leaves the store alone, or appends one user with a fresh email,
or rewrites one stored user keeping the email. In the last case the
verification token and its expiry are kept or cleared, and the reset token and
its expiry are kept or cleared unless the request is a forgotPassword for that
user's email. -/
theorem handle_store_cases (H : Hasher) (env : Env) (s : Store) (req : Request) :
    (handle H env s req).1 = s ∨
    (∃ u : User, (handle H env s req).1 = s ++ [u] ∧
      (∀ v ∈ s, v.email ≠ u.email) ∧ TokensPaired u) ∨
    (∃ (id : Nat) (user u : User), s[id]? = some user ∧
      (handle H env s req).1 = s.set id u ∧ u.email = user.email ∧
      (TokensPaired user → TokensPaired u) ∧
      (u.verificationToken = none ∨ u.verificationToken = user.verificationToken) ∧
      (u.verificationTokenExpiresAt = none ∨
        u.verificationTokenExpiresAt = user.verificationTokenExpiresAt) ∧
      ((u.resetPasswordToken = none ∨ u.resetPasswordToken = user.resetPasswordToken) ∧
          (u.resetPasswordExpiresAt = none ∨
            u.resetPasswordExpiresAt = user.resetPasswordExpiresAt) ∨
        req = Request.forgotPassword (some user.email))) := by
  cases req with
  | signup email password name =>
    rcases signup_cases H env s email password name with ⟨h, _⟩ | h
    · exact Or.inl h
    · obtain ⟨e, p, n, _, _, _, _, _, _, hfresh, hs, _, _⟩ := h
      exact Or.inr (Or.inl ⟨_, hs, hfresh, by simp [TokensPaired]⟩)
  | verifyEmail code =>
    simp only [handle, verifyEmail]
    split
    · exact Or.inl rfl
    · rename_i id user hf
      obtain ⟨hget, _, _⟩ := findOne_eq_some _ s id user hf
      refine Or.inr (Or.inr ⟨id, user,
        { user with
          isVerified := true
          verificationToken := none
          verificationTokenExpiresAt := none }, hget, ?_, rfl, ?_, Or.inl rfl, Or.inl rfl,
        Or.inl ⟨Or.inr rfl, Or.inr rfl⟩⟩)
      · split <;> rfl
      · intro h; exact ⟨by simp, h.2⟩
  | login email password =>
    simp only [handle, login]
    split
    · split
      · exact Or.inl rfl
      · rename_i id user hf
        obtain ⟨hget, _, _⟩ := findOne_eq_some _ s id user hf
        split
        · exact Or.inl rfl
        · split
          · exact Or.inr (Or.inr ⟨id, user, _, hget, rfl, rfl, fun h => h, Or.inr rfl,
              Or.inr rfl, Or.inl ⟨Or.inr rfl, Or.inr rfl⟩⟩)
          · exact Or.inl rfl
    · exact Or.inl rfl
  | logout => exact Or.inl rfl
  | forgotPassword email =>
    simp only [handle, forgotPassword]
    split
    · exact Or.inl rfl
    · rename_i e he
      split
      · exact Or.inl rfl
      · rename_i id user hf
        obtain ⟨hget, hp, _⟩ := findOne_eq_some _ s id user hf
        have hue : user.email = e := (byEmail_eq_true e user).mp hp
        obtain ⟨he1, _⟩ := truthy_eq_some _ _ he
        exact Or.inr (Or.inr ⟨id, user, _, hget, rfl, rfl, fun h => ⟨h.1, by simp⟩,
          Or.inr rfl, Or.inr rfl, Or.inr (by rw [he1, hue])⟩)
  | resetPassword token password =>
    simp only [handle, resetPassword]
    split
    · exact Or.inl rfl
    · rename_i id user hf
      obtain ⟨hget, _, _⟩ := findOne_eq_some _ s id user hf
      split
      · exact Or.inl rfl
      · exact Or.inr (Or.inr ⟨id, user, _, hget, rfl, rfl, fun h => ⟨h.1, by simp⟩,
          Or.inr rfl, Or.inr rfl, Or.inl ⟨Or.inl rfl, Or.inl rfl⟩⟩)
  | checkAuth userId =>
    simp only [handle, checkAuth]
    split <;> exact Or.inl rfl

theorem run_invariant (H : Hasher) (P : Store → Prop)
    (hstep : ∀ (env : Env) (s : Store) (req : Request), P s → P (handle H env s req).1)
    (trace : List (Env × Request)) (s : Store) (h : P s) : P (run H s trace) := by
  induction trace generalizing s with
  | nil => exact h
  | cons x rest ih =>
    obtain ⟨env, req⟩ := x
    exact ih _ (hstep env s req h)

theorem run_invariant_where (H : Hasher) (P : Store → Prop) (Q : Request → Prop)
    (hstep : ∀ (env : Env) (s : Store) (req : Request), Q req → P s →
      P (handle H env s req).1)
    (trace : List (Env × Request)) (hQ : ∀ x ∈ trace, Q x.2) (s : Store) (h : P s) :
    P (run H s trace) := by
  induction trace generalizing s with
  | nil => exact h
  | cons x rest ih =>
    obtain ⟨env, req⟩ := x
    exact ih (fun y hy => hQ y (List.mem_cons_of_mem _ hy)) _
      (hstep env s req (hQ (env, req) (List.mem_cons_self _ _)) h)

theorem verifyEmailMatch_eq_some (env : Env) (s : Store) (code : String) (id : Nat)
    (h : verifyEmailMatch env s code = some id) :
    ∃ user, findOne (byVerificationToken code env.now) s = some (id, user) := by
  unfold verifyEmailMatch at h
  cases hf : findOne (byVerificationToken code env.now) s with
  | none => rw [hf] at h; simp at h
  | some r =>
    obtain ⟨k, user⟩ := r
    rw [hf] at h
    simp only [Option.map_some', Option.some.injEq] at h
    subst h
    exact ⟨user, rfl⟩

theorem resetPasswordMatch_eq_some (env : Env) (s : Store) (token : String) (id : Nat)
    (h : resetPasswordMatch env s token = some id) :
    ∃ user, findOne (byResetToken token env.now) s = some (id, user) := by
  unfold resetPasswordMatch at h
  cases hf : findOne (byResetToken token env.now) s with
  | none => rw [hf] at h; simp at h
  | some r =>
    obtain ⟨k, user⟩ := r
    rw [hf] at h
    simp only [Option.map_some', Option.some.injEq] at h
    subst h
    exact ⟨user, rfl⟩

/-- A stored user whom the filter rejects is not the user `verifyEmail`
matches. -/
theorem verifyEmailMatch_ne (env : Env) (s : Store) (code : String) (id : Nat) (u : User)
    (hget : s[id]? = some u) (hp : byVerificationToken code env.now u = false) :
    verifyEmailMatch env s code ≠ some id := by
  intro h
  obtain ⟨user, hf⟩ := verifyEmailMatch_eq_some env s code id h
  obtain ⟨hget2, hp2, _⟩ := findOne_eq_some _ s id user hf
  rw [hget] at hget2
  rw [Option.some.inj hget2, hp2] at hp
  exact absurd hp (by decide)

/-- A stored user whom the filter rejects is not the user `resetPassword`
matches. -/
theorem resetPasswordMatch_ne (env : Env) (s : Store) (token : String) (id : Nat) (u : User)
    (hget : s[id]? = some u) (hp : byResetToken token env.now u = false) :
    resetPasswordMatch env s token ≠ some id := by
  intro h
  obtain ⟨user, hf⟩ := resetPasswordMatch_eq_some env s token id h
  obtain ⟨hget2, hp2, _⟩ := findOne_eq_some _ s id user hf
  rw [hget] at hget2
  rw [Option.some.inj hget2, hp2] at hp
  exact absurd hp (by decide)

theorem gt_expired (now : Nat) (e : Option Nat) (h : ∀ t, e = some t → t ≤ now) :
    gt now e = false := by
  cases e with
  | none => rfl
  | some t =>
    have := h t rfl
    simp only [gt, decide_eq_false_iff_not]
    omega

theorem tokensPaired_step (H : Hasher) (env : Env) (s : Store) (req : Request)
    (h : ∀ u ∈ s, TokensPaired u) : ∀ u ∈ (handle H env s req).1, TokensPaired u := by
  rcases handle_store_cases H env s req with hs | ⟨u, hs, _, hu⟩ |
    ⟨id, user, u, hget, hs, _, hu, _⟩
  · rw [hs]; exact h
  · rw [hs]
    intro v hv
    rcases List.mem_append.mp hv with hv | hv
    · exact h v hv
    · rw [List.mem_singleton.mp hv]; exact hu
  · rw [hs]
    intro v hv
    rcases mem_set_cases s id u v hv with rfl | ⟨k, _, hk⟩
    · obtain ⟨hlt, hget2⟩ := List.getElem?_eq_some_iff.mp hget
      exact hu (h user (hget2 ▸ List.getElem_mem hlt))
    · obtain ⟨hlt, hget2⟩ := List.getElem?_eq_some_iff.mp hk
      exact h v (hget2 ▸ List.getElem_mem hlt)

/-- Once a stored user has no verification token and no expiry, no request
gives it one again. -/
theorem verification_cleared_step (H : Hasher) (env : Env) (s : Store) (req : Request)
    (id : Nat)
    (h : ∃ u, s[id]? = some u ∧ u.verificationToken = none ∧
      u.verificationTokenExpiresAt = none) :
    ∃ u, (handle H env s req).1[id]? = some u ∧ u.verificationToken = none ∧
      u.verificationTokenExpiresAt = none := by
  obtain ⟨u, hget, h1, h2⟩ := h
  have hlt : id < s.length := (List.getElem?_eq_some_iff.mp hget).1
  rcases handle_store_cases H env s req with hs | ⟨w, hs, _, _⟩ |
    ⟨k, w, w2, hk, hs, _, _, ht, he, _⟩
  · rw [hs]; exact ⟨u, hget, h1, h2⟩
  · rw [hs, List.getElem?_append_left hlt]; exact ⟨u, hget, h1, h2⟩
  · rw [hs]
    by_cases hkid : k = id
    · subst hkid
      rw [hget] at hk
      have hw : u = w := Option.some.inj hk
      subst hw
      refine ⟨w2, by simp [hlt], ?_, ?_⟩
      · rcases ht with ht | ht
        · exact ht
        · rw [ht, h1]
      · rcases he with he | he
        · exact he
        · rw [he, h2]
    · exact ⟨u, by rw [List.getElem?_set]; simp [hkid, hget], h1, h2⟩

/-- Once a stored user has no reset token and no expiry, only a forgotPassword
for that user's email gives it one again; the email of a stored user never
changes. -/
theorem reset_cleared_step (H : Hasher) (env : Env) (s : Store) (req : Request)
    (id : Nat) (email : String)
    (hreq : req ≠ Request.forgotPassword (some email))
    (h : ∃ u, s[id]? = some u ∧ u.email = email ∧ u.resetPasswordToken = none ∧
      u.resetPasswordExpiresAt = none) :
    ∃ u, (handle H env s req).1[id]? = some u ∧ u.email = email ∧
      u.resetPasswordToken = none ∧ u.resetPasswordExpiresAt = none := by
  obtain ⟨u, hget, hem, h1, h2⟩ := h
  have hlt : id < s.length := (List.getElem?_eq_some_iff.mp hget).1
  rcases handle_store_cases H env s req with hs | ⟨w, hs, _, _⟩ |
    ⟨k, w, w2, hk, hs, hemail, _, _, _, hr⟩
  · rw [hs]; exact ⟨u, hget, hem, h1, h2⟩
  · rw [hs, List.getElem?_append_left hlt]; exact ⟨u, hget, hem, h1, h2⟩
  · rw [hs]
    by_cases hkid : k = id
    · subst hkid
      rw [hget] at hk
      have hw : u = w := Option.some.inj hk
      subst hw
      rcases hr with ⟨ht, he⟩ | hr
      · refine ⟨w2, by simp [hlt], hemail.trans hem, ?_, ?_⟩
        · rcases ht with ht | ht
          · exact ht
          · rw [ht, h1]
        · rcases he with he | he
          · exact he
          · rw [he, h2]
      · rw [hem] at hr
        exact absurd hr hreq
    · exact ⟨u, by rw [List.getElem?_set]; simp [hkid, hget], hem, h1, h2⟩

theorem verifyEmail_status_of_match (env : Env) (s : Store) (code : String)
    (hmail : env.welcomeEmailSent = true)
    (h : ∃ u ∈ s, byVerificationToken code env.now u = true) :
    (verifyEmail env s code).2.status = 200 := by
  cases hf : findOne (byVerificationToken code env.now) s with
  | none =>
    obtain ⟨u, hu, hp⟩ := h
    have := (findOne_eq_none _ s).mp hf u hu
    rw [hp] at this
    exact absurd this (by decide)
  | some r =>
    simp only [verifyEmail, hf, hmail, if_true]

theorem verifyEmail_rejects (env : Env) (s : Store) (code : String)
    (h : ∀ u ∈ s, u.verificationToken = some code →
      ∀ e, u.verificationTokenExpiresAt = some e → e ≤ env.now) :
    verifyEmail env s code = (s, fail 400 "Invalid or expired verification code") := by
  have hnone : findOne (byVerificationToken code env.now) s = none := by
    rw [findOne_eq_none]
    intro u hu
    cases hb : byVerificationToken code env.now u with
    | false => rfl
    | true =>
      obtain ⟨ht, e, he, hlt⟩ := (byVerificationToken_eq_true code env.now u).mp hb
      exact absurd (h u hu ht e he) (by omega)
  simp only [verifyEmail, hnone]

theorem resetPassword_rejects (H : Hasher) (env : Env) (s : Store) (token : String)
    (password : BodyValue)
    (h : ∀ u ∈ s, u.resetPasswordToken = some token →
      ∀ e, u.resetPasswordExpiresAt = some e → e ≤ env.now) :
    resetPassword H env s token password = (s, fail 400 "Invalid or expired reset token") := by
  have hnone : findOne (byResetToken token env.now) s = none := by
    rw [findOne_eq_none]
    intro u hu
    cases hb : byResetToken token env.now u with
    | false => rfl
    | true =>
      obtain ⟨ht, e, he, hlt⟩ := (byResetToken_eq_true token env.now u).mp hb
      exact absurd (h u hu ht e he) (by omega)
  simp only [resetPassword, hnone]

/-! ## The verification code: binary64 arithmetic -/

theorem excessBits_le (fuel n t : Nat) (h : n < 2 ^ (53 + t)) : excessBits fuel n ≤ t := by
  induction fuel generalizing n t with
  | zero => simp [excessBits]
  | succ fuel ih =>
    by_cases hn : n < 2 ^ 53
    · simp only [excessBits, hn, if_true]
      exact Nat.zero_le _
    · simp only [excessBits, hn, if_false]
      cases t with
      | zero => exact absurd h hn
      | succ t =>
        have h2 : n / 2 < 2 ^ (53 + t) := by
          have : 2 ^ (53 + (t + 1)) = 2 * 2 ^ (53 + t) := by
            rw [← Nat.add_assoc, Nat.pow_succ, Nat.mul_comm]
          omega
        have := ih (n / 2) t h2
        omega

theorem lt_pow_excessBits (fuel n : Nat) (h : n < 2 ^ (53 + fuel)) :
    n < 2 ^ (53 + excessBits fuel n) := by
  induction fuel generalizing n with
  | zero => simpa [excessBits] using h
  | succ fuel ih =>
    by_cases hn : n < 2 ^ 53
    · simp only [excessBits, hn, if_true]
    · simp only [excessBits, hn, if_false]
      have hp : 2 ^ (53 + (fuel + 1)) = 2 * 2 ^ (53 + fuel) := by
        rw [← Nat.add_assoc, Nat.pow_succ, Nat.mul_comm]
      have h2 : n / 2 < 2 ^ (53 + fuel) := by omega
      have := ih (n / 2) h2
      have hq : 2 ^ (53 + (excessBits fuel (n / 2) + 1)) =
          2 * 2 ^ (53 + excessBits fuel (n / 2)) := by
        rw [← Nat.add_assoc, Nat.pow_succ, Nat.mul_comm]
      omega

theorem lt_pow_excessBits_self (n : Nat) : n < 2 ^ (53 + excessBits n n) := by
  apply lt_pow_excessBits
  calc n < 2 ^ n := Nat.lt_two_pow n
    _ ≤ 2 ^ (53 + n) := Nat.pow_le_pow_right (by decide) (by omega)

/-- Rounding to binary64 lands on the grid of its exponent, at most half a
grid step away. -/
theorem roundDouble_spec (n : Nat) :
    (∃ m, roundDouble n = m * 2 ^ excessBits n n) ∧
      2 * roundDouble n ≤ 2 * n + 2 ^ excessBits n n ∧
      2 * n ≤ 2 * roundDouble n + 2 ^ excessBits n n := by
  have hdm := Nat.div_add_mod n (2 ^ excessBits n n)
  have hlt : n % 2 ^ excessBits n n < 2 ^ excessBits n n :=
    Nat.mod_lt _ (Nat.pos_pow_of_pos _ (by decide))
  have hc : 2 ^ excessBits n n * (n / 2 ^ excessBits n n) =
      n / 2 ^ excessBits n n * 2 ^ excessBits n n := Nat.mul_comm _ _
  have hs : (n / 2 ^ excessBits n n + 1) * 2 ^ excessBits n n =
      n / 2 ^ excessBits n n * 2 ^ excessBits n n + 2 ^ excessBits n n := by
    rw [Nat.add_mul, Nat.one_mul]
  unfold roundDouble
  simp only []
  split
  · exact ⟨⟨_, rfl⟩, by omega, by omega⟩
  · split
    · exact ⟨⟨_, rfl⟩, by omega, by omega⟩
    · exact ⟨⟨_, rfl⟩, by omega, by omega⟩

/-- The rounded product `Math.random() * 900000` stays one grid step below
900000. -/
theorem product_bound (k : Nat) (hk : k < 2 ^ 53) :
    roundDouble (k * 900000) ≤ 900000 * 2 ^ 53 - 2 ^ 20 := by
  obtain ⟨⟨m, hm⟩, hup, _⟩ := roundDouble_spec (k * 900000)
  have hlt := lt_pow_excessBits_self (k * 900000)
  have hs : excessBits (k * 900000) (k * 900000) ≤ 20 :=
    excessBits_le _ _ 20 (by norm_num at hk ⊢; omega)
  generalize excessBits (k * 900000) (k * 900000) = s at hm hup hlt hs
  generalize roundDouble (k * 900000) = r at hm hup ⊢
  norm_num at hk ⊢
  interval_cases s <;> norm_num at hm hup hlt <;> omega

/-- The number `Math.floor(100000 + Math.random() * 900000)` lies between
100000 and 999999. -/
theorem verificationTokenNumber_bounds (k : Nat) (hk : k < 2 ^ 53) :
    100000 ≤ verificationTokenNumber k ∧ verificationTokenNumber k ≤ 999999 := by
  have hp := product_bound k hk
  unfold verificationTokenNumber
  generalize roundDouble (k * 900000) = p at hp ⊢
  obtain ⟨⟨m, hm⟩, hup, hlow⟩ := roundDouble_spec (100000 * 2 ^ 53 + p)
  have hlt := lt_pow_excessBits_self (100000 * 2 ^ 53 + p)
  have hs : excessBits (100000 * 2 ^ 53 + p) (100000 * 2 ^ 53 + p) ≤ 20 :=
    excessBits_le _ _ 20 (by norm_num at hp ⊢; omega)
  generalize excessBits (100000 * 2 ^ 53 + p) (100000 * 2 ^ 53 + p) = s at hm hup hlow hlt hs
  generalize roundDouble (100000 * 2 ^ 53 + p) = r at hm hup hlow ⊢
  norm_num at hp ⊢
  interval_cases s <;> norm_num at hm hup hlow hlt <;> omega

/-- The binary64 evaluation at the ends and in the middle of the range of
`Math.random()`. -/
theorem verificationTokenNumber_examples :
    verificationTokenNumber 0 = 100000 ∧
      verificationTokenNumber (2 ^ 52) = 550000 ∧
      verificationTokenNumber (2 ^ 53 - 1) = 999999 := by
  decide

/-- The binary64 evaluation against exact arithmetic: the number is the
real-number floor of `100000 + 900000 * (k / 2 ^ 53)` or, when the rounded
product reaches the next integer, one more. -/
theorem verificationTokenNumber_floor (k : Nat) (hk : k < 2 ^ 53) :
    exactFloorNumber k ≤ verificationTokenNumber k ∧
      verificationTokenNumber k ≤ exactFloorNumber k + 1 := by
  have hp : k * 900000 / 2 ^ 53 * 2 ^ 53 ≤ roundDouble (k * 900000) ∧
      2 * roundDouble (k * 900000) ≤ 2 * (k * 900000) + 2 ^ 20 := by
    obtain ⟨⟨m, hm⟩, hup, hlow⟩ := roundDouble_spec (k * 900000)
    have hs : excessBits (k * 900000) (k * 900000) ≤ 20 :=
      excessBits_le _ _ 20 (by norm_num at hk ⊢; omega)
    generalize excessBits (k * 900000) (k * 900000) = s at hm hup hlow hs
    generalize roundDouble (k * 900000) = r at hm hup hlow ⊢
    norm_num at hk ⊢
    interval_cases s <;> norm_num at hm hup hlow <;> omega
  unfold verificationTokenNumber exactFloorNumber
  generalize roundDouble (k * 900000) = p at hp ⊢
  obtain ⟨⟨m, hm⟩, hup, hlow⟩ := roundDouble_spec (100000 * 2 ^ 53 + p)
  have hs : excessBits (100000 * 2 ^ 53 + p) (100000 * 2 ^ 53 + p) ≤ 20 :=
    excessBits_le _ _ 20 (by norm_num at hk hp ⊢; omega)
  generalize excessBits (100000 * 2 ^ 53 + p) (100000 * 2 ^ 53 + p) = s at hm hup hlow hs
  generalize roundDouble (100000 * 2 ^ 53 + p) = r at hm hup hlow ⊢
  norm_num at hk hp ⊢
  interval_cases s <;> norm_num at hm hup hlow <;> omega

/-! ## The verification code: decimal digits -/

theorem digitChar_isDigit (d : Nat) (h : d < 10) : (Nat.digitChar d).isDigit = true := by
  interval_cases d <;> decide

theorem digitChar_ne_zero (d : Nat) (h0 : 0 < d) (h : d < 10) : Nat.digitChar d ≠ '0' := by
  interval_cases d <;> decide

/-- The decimal digits of a number between 100000 and 999999. -/
theorem toDigits_six (n : Nat) (hlo : 100000 ≤ n) (hhi : n ≤ 999999) :
    Nat.toDigits 10 n =
      [Nat.digitChar (n / 10 / 10 / 10 / 10 / 10 % 10),
       Nat.digitChar (n / 10 / 10 / 10 / 10 % 10),
       Nat.digitChar (n / 10 / 10 / 10 % 10),
       Nat.digitChar (n / 10 / 10 % 10),
       Nat.digitChar (n / 10 % 10),
       Nat.digitChar (n % 10)] := by
  obtain ⟨f, hf⟩ : ∃ f, n + 1 = f + 6 := ⟨n - 5, by omega⟩
  have h1 : n / 10 ≠ 0 := by omega
  have h2 : n / 10 / 10 ≠ 0 := by omega
  have h3 : n / 10 / 10 / 10 ≠ 0 := by omega
  have h4 : n / 10 / 10 / 10 / 10 ≠ 0 := by omega
  have h5 : n / 10 / 10 / 10 / 10 / 10 ≠ 0 := by omega
  have h6 : n / 10 / 10 / 10 / 10 / 10 / 10 = 0 := by omega
  unfold Nat.toDigits
  rw [hf]
  simp only [Nat.toDigitsCore, h1, h2, h3, h4, h5, h6, if_true, if_false]

/-- A number between 100000 and 999999 prints as six decimal digits, the first
of which is not zero. -/
theorem toString_six_digits (n : Nat) (hlo : 100000 ≤ n) (hhi : n ≤ 999999) :
    (toString n).length = 6 ∧
      (toString n).toList.all Char.isDigit = true ∧
      (toString n).toList.head? ≠ some '0' := by
  have hd := toDigits_six n hlo hhi
  have hs : toString n = String.mk (Nat.toDigits 10 n) := rfl
  have hpos : 0 < n / 10 / 10 / 10 / 10 / 10 % 10 := by omega
  rw [hs, hd]
  refine ⟨rfl, ?_, ?_⟩
  · simp only [String.toList, List.all_cons, List.all_nil, Bool.and_true, Bool.and_eq_true]
    refine ⟨?_, ?_, ?_, ?_, ?_, ?_⟩ <;> exact digitChar_isDigit _ (Nat.mod_lt _ (by decide))
  · simp only [String.toList, List.head?_cons, ne_eq, Option.some.injEq]
    exact digitChar_ne_zero _ hpos (Nat.mod_lt _ (by decide))

/-! ## C1: verifyEmail -/

/-- C1 (as stated, refuted): the store holds a user whose verification token
equals the code and whose expiry is later than the current time, yet
verifyEmail answers 500 with success=false, because the awaited welcome mail
failed; the user has been saved as verified all the same. -/
theorem verifyEmail_welcome_failure_counterexample :
    (∃ u ∈ [alice], u.verificationToken = some "123456" ∧
        ∃ t, u.verificationTokenExpiresAt = some t ∧ (envAt 5 false).now < t) ∧
      (verifyEmail (envAt 5 false) [alice] "123456").2.status = 500 ∧
      (verifyEmail (envAt 5 false) [alice] "123456").2.success = some false ∧
      (verifyEmail (envAt 5 false) [alice] "123456").1 =
        [{ alice with
            isVerified := true
            verificationToken := none
            verificationTokenExpiresAt := none }] := by
  decide

/-- C1 (amended): when the welcome mail is sent without error, verifyEmail
answers 200 with success=true if and only if the store holds a user whose
verificationToken equals the code and whose verificationTokenExpiresAt is
strictly greater than the current time; and whenever verifyEmail answers 200,
the new store is the old one with the first such user replaced by a copy that
has isVerified=true and verificationToken and verificationTokenExpiresAt
cleared. -/
theorem verifyEmail_succeeds_iff (env : Env) (s : Store) (code : String) :
    (env.welcomeEmailSent = true →
      (((verifyEmail env s code).2.status = 200 ∧
          (verifyEmail env s code).2.success = some true) ↔
        ∃ u ∈ s, u.verificationToken = some code ∧
          ∃ t, u.verificationTokenExpiresAt = some t ∧ env.now < t)) ∧
    ((verifyEmail env s code).2.status = 200 →
      ∃ id user verified,
        s[id]? = some user ∧
        user.verificationToken = some code ∧
        (∃ t, user.verificationTokenExpiresAt = some t ∧ env.now < t) ∧
        (∀ k, k < id → ∀ v, s[k]? = some v →
          byVerificationToken code env.now v = false) ∧
        verified = { user with
                      isVerified := true
                      verificationToken := none
                      verificationTokenExpiresAt := none } ∧
        (verifyEmail env s code).1 = s.set id verified ∧
        (verifyEmail env s code).1[id]? = some verified ∧
        verified.isVerified = true ∧
        verified.verificationToken = none ∧
        verified.verificationTokenExpiresAt = none) := by
  constructor
  · intro hmail
    cases hf : findOne (byVerificationToken code env.now) s with
    | none =>
      have hnone := (findOne_eq_none _ s).mp hf
      simp only [verifyEmail, hf, fail_status, fail_success]
      constructor
      · intro h; exact absurd h.1 (by decide)
      · rintro ⟨u, hu, h1, h2⟩
        have := hnone u hu
        rw [(byVerificationToken_eq_true code env.now u).mpr ⟨h1, h2⟩] at this
        exact absurd this (by decide)
    | some r =>
      obtain ⟨id, user⟩ := r
      obtain ⟨hmem, _⟩ := findOne_mem _ s id user hf
      obtain ⟨_, hp, _⟩ := findOne_eq_some _ s id user hf
      have hp2 := (byVerificationToken_eq_true code env.now user).mp hp
      simp only [verifyEmail, hf, hmail, if_true]
      constructor
      · intro _; exact ⟨user, hmem, hp2⟩
      · intro _; exact ⟨trivial, rfl⟩
  · intro hst
    cases hf : findOne (byVerificationToken code env.now) s with
    | none =>
      simp only [verifyEmail, hf, fail_status] at hst
      exact absurd hst (by decide)
    | some r =>
      obtain ⟨id, user⟩ := r
      obtain ⟨_, hlt⟩ := findOne_mem _ s id user hf
      obtain ⟨hget, hp, hfirst⟩ := findOne_eq_some _ s id user hf
      have hp2 := (byVerificationToken_eq_true code env.now user).mp hp
      refine ⟨id, user, _, hget, hp2.1, hp2.2, hfirst, rfl, ?_, ?_, rfl, rfl, rfl⟩
      · simp only [verifyEmail, hf]
        split <;> rfl
      · simp only [verifyEmail, hf]
        split <;> simp [hlt]

/-- C1 (amended), at a concrete input: the store holding alice, her code
123456, time 5, the welcome mail sent. -/
theorem verifyEmail_succeeds_iff_witness :
    (verifyEmail (envAt 5 true) [alice] "123456").2.status = 200 ∧
      (verifyEmail (envAt 5 true) [alice] "123456").2.success = some true ∧
      ∃ id user verified,
        [alice][id]? = some user ∧
        user.verificationToken = some "123456" ∧
        (∃ t, user.verificationTokenExpiresAt = some t ∧ (envAt 5 true).now < t) ∧
        (∀ k, k < id → ∀ v, [alice][k]? = some v →
          byVerificationToken "123456" (envAt 5 true).now v = false) ∧
        verified = { user with
                      isVerified := true
                      verificationToken := none
                      verificationTokenExpiresAt := none } ∧
        (verifyEmail (envAt 5 true) [alice] "123456").1 = [alice].set id verified ∧
        (verifyEmail (envAt 5 true) [alice] "123456").1[id]? = some verified ∧
        verified.isVerified = true ∧
        verified.verificationToken = none ∧
        verified.verificationTokenExpiresAt = none :=
  have h := verifyEmail_succeeds_iff (envAt 5 true) [alice] "123456"
  have h200 := (h.1 rfl).mpr ⟨alice, by simp, rfl, 1000, rfl, by decide⟩
  ⟨h200.1, h200.2, h.2 h200.1⟩

/-! ## C2: resetPassword -/

/-- C2 (as stated, refuted): bob and carol hold the same unexpired reset token;
the first resetPassword with it succeeds and leaves carol untouched, and the
second call with the same token on the resulting store answers 200 again
instead of 400. -/
theorem resetPassword_shared_token_counterexample :
    (resetPassword toyHasher (envAt 5 true) [bob, carol] "tok" (BodyValue.str "new")).2.status = 200 ∧
      (resetPassword toyHasher (envAt 5 true) [bob, carol] "tok" (BodyValue.str "new")).1 =
        [{ bob with
            password := "h:new"
            resetPasswordToken := none
            resetPasswordExpiresAt := none }, carol] ∧
      (resetPassword toyHasher (envAt 6 true)
        (resetPassword toyHasher (envAt 5 true) [bob, carol] "tok" (BodyValue.str "new")).1
        "tok" (BodyValue.str "new")).2.status = 200 := by
  decide

/-- C2 (amended): if resetPassword is called with a new password and a token
that equals the resetPasswordToken of a user whose resetPasswordExpiresAt is
later than the current time, it answers 200 and the first such user in the
store gets the hash of the new password and has resetPasswordToken and
resetPasswordExpiresAt cleared, all other users unchanged; and a second
resetPassword call with the same token on the resulting store answers 400 with
the message "Invalid or expired reset token" and changes nothing, provided no
other user holds the same token with an expiry later than the time of the
second call. -/
theorem resetPassword_consumes_token (H : Hasher) (env env2 : Env) (s : Store)
    (token password : String) (password2 : BodyValue)
    (id : Nat) (user : User) (t : Nat)
    (hget : s[id]? = some user)
    (htoken : user.resetPasswordToken = some token)
    (hexpiry : user.resetPasswordExpiresAt = some t)
    (hfuture : env.now < t)
    (hfirst : ∀ k, k < id → ∀ v, s[k]? = some v → byResetToken token env.now v = false) :
    (resetPassword H env s token (BodyValue.str password)).2.status = 200 ∧
    (resetPassword H env s token (BodyValue.str password)).1 =
      s.set id { user with
                  password := H.hash password env.salt
                  resetPasswordToken := none
                  resetPasswordExpiresAt := none } ∧
    (resetPassword H env s token (BodyValue.str password)).1[id]? =
      some { user with
              password := H.hash password env.salt
              resetPasswordToken := none
              resetPasswordExpiresAt := none } ∧
    (∀ k, k ≠ id → (resetPassword H env s token (BodyValue.str password)).1[k]? = s[k]?) ∧
    ((∀ k v, k ≠ id → s[k]? = some v → byResetToken token env2.now v = false) →
      (resetPassword H env2 (resetPassword H env s token (BodyValue.str password)).1
          token password2).2.status = 400 ∧
      (resetPassword H env2 (resetPassword H env s token (BodyValue.str password)).1
          token password2).2.message = some "Invalid or expired reset token" ∧
      (resetPassword H env2 (resetPassword H env s token (BodyValue.str password)).1
          token password2).1 = (resetPassword H env s token (BodyValue.str password)).1) := by
  have hp : byResetToken token env.now user = true :=
    (byResetToken_eq_true token env.now user).mpr ⟨htoken, t, hexpiry, hfuture⟩
  have hf := findOne_of_first _ s id user hget hp hfirst
  have hlt : id < s.length := (List.getElem?_eq_some_iff.mp hget).1
  have hs : (resetPassword H env s token (BodyValue.str password)).1 =
      s.set id { user with
                  password := H.hash password env.salt
                  resetPasswordToken := none
                  resetPasswordExpiresAt := none } := by
    simp only [resetPassword, hf, bcryptHash_str]
  refine ⟨?_, hs, ?_, ?_, ?_⟩
  · simp only [resetPassword, hf, bcryptHash_str]
  · rw [hs]; simp [hlt]
  · intro k hk
    rw [hs, List.getElem?_set]
    simp [Ne.symm hk]
  · intro hothers
    rw [hs]
    have hnone : findOne (byResetToken token env2.now)
        (s.set id { user with
                  password := H.hash password env.salt
                  resetPasswordToken := none
                  resetPasswordExpiresAt := none }) = none := by
      rw [findOne_eq_none]
      intro v hv
      rcases mem_set_cases s id _ v hv with rfl | ⟨k, hk, hkv⟩
      · simp [byResetToken]
      · exact hothers k v hk hkv
    simp only [resetPassword, hnone, fail_status, fail_message, and_self]

/-- C2 (amended), at a concrete input: bob alone in the store, his token, a
new password at time 5 and a second call at time 6. -/
theorem resetPassword_consumes_token_witness :
    (resetPassword toyHasher (envAt 5 true) [bob] "tok" (BodyValue.str "new")).2.status = 200 ∧
    (resetPassword toyHasher (envAt 5 true) [bob] "tok" (BodyValue.str "new")).1[0]? =
      some { bob with
              password := toyHasher.hash "new" (envAt 5 true).salt
              resetPasswordToken := none
              resetPasswordExpiresAt := none } ∧
    (resetPassword toyHasher (envAt 6 true)
        (resetPassword toyHasher (envAt 5 true) [bob] "tok" (BodyValue.str "new")).1
        "tok" (BodyValue.str "again")).2.status = 400 ∧
    (resetPassword toyHasher (envAt 6 true)
        (resetPassword toyHasher (envAt 5 true) [bob] "tok" (BodyValue.str "new")).1
        "tok" (BodyValue.str "again")).2.message = some "Invalid or expired reset token" :=
  have h := resetPassword_consumes_token toyHasher (envAt 5 true) (envAt 6 true) [bob]
    "tok" "new" (BodyValue.str "again") 0 bob 1000 rfl rfl rfl (by decide)
    (fun k hk => absurd hk (Nat.not_lt_zero k))
  have h2 := h.2.2.2.2 (fun k v hk hv => by
    cases k with
    | zero => exact absurd rfl hk
    | succ k => simp at hv)
  ⟨h.1, h.2.2.1, h2.1, h2.2.1⟩

/-! ## C3: signup with a registered email -/

/-- C3 (as stated, refuted): the email of the request is registered, but the
request has no password, and signup answers "All fields are required" rather
than "User already exists". -/
theorem signup_registered_missing_field_counterexample :
    (∃ u ∈ [alice], u.email = "a@x.com") ∧
      (signup toyHasher (envAt 5 true) [alice] (some "a@x.com") BodyValue.undefined
        (some "A")).2.status = 400 ∧
      (signup toyHasher (envAt 5 true) [alice] (some "a@x.com") BodyValue.undefined
        (some "A")).2.message = some "All fields are required" ∧
      (signup toyHasher (envAt 5 true) [alice] (some "a@x.com") BodyValue.undefined
        (some "A")).2.message ≠ some "User already exists" := by
  decide

/-- C3 (amended): for every signup request whose email is already registered
in the user store, signup answers with status 400 and success=false and the
user store after the call equals the store before it; the message is the
conflict error "User already exists" when none of email, password and name is
missing or empty (the lookup comes before the password is hashed, so this holds
for a truthy password of any type), and "All fields are required"
otherwise. -/
theorem signup_registered_email_conflict (H : Hasher) (env : Env) (s : Store)
    (email : String) (password : BodyValue) (name : Option String)
    (hregistered : ∃ u ∈ s, u.email = email) :
    (signup H env s (some email) password name).2.status = 400 ∧
    (signup H env s (some email) password name).2.success = some false ∧
    (signup H env s (some email) password name).1 = s ∧
    (email ≠ "" → password.truthy = true → (∃ n, name = some n ∧ n ≠ "") →
      (signup H env s (some email) password name).2.message = some "User already exists") ∧
    ((email = "" ∨ password.truthy = false ∨ truthy name = none) →
      (signup H env s (some email) password name).2.message =
        some "All fields are required") := by
  obtain ⟨r, hr⟩ := findOne_byEmail_isSome s email hregistered
  refine ⟨?_, ?_, ?_, ?_, ?_⟩
  · rcases signup_cases H env s (some email) password name with ⟨_, h, _⟩ | h
    · exact h
    · obtain ⟨e, p, n, he, _, _, _, _, _, hfresh, _⟩ := h
      obtain ⟨u, hu, hue⟩ := hregistered
      exact absurd (hue.trans (Option.some.inj he)) (hfresh u hu)
  · rcases signup_cases H env s (some email) password name with ⟨_, _, h⟩ | h
    · exact h
    · obtain ⟨e, p, n, he, _, _, _, _, _, hfresh, _⟩ := h
      obtain ⟨u, hu, hue⟩ := hregistered
      exact absurd (hue.trans (Option.some.inj he)) (hfresh u hu)
  · rcases signup_cases H env s (some email) password name with ⟨h, _⟩ | h
    · exact h
    · obtain ⟨e, p, n, he, _, _, _, _, _, hfresh, _⟩ := h
      obtain ⟨u, hu, hue⟩ := hregistered
      exact absurd (hue.trans (Option.some.inj he)) (hfresh u hu)
  · rintro hemail hp ⟨n, rfl, hn⟩
    simp only [signup, truthy_some _ hemail, hp, truthy_some _ hn, hr, fail_message]
  · intro h
    unfold signup
    split
    · rename_i e n he hp hn
      rcases h with h | h | h
      · subst h
        simp [truthy] at he
      · rw [h] at hp
        exact absurd hp (by simp)
      · rw [h] at hn
        exact absurd hn (by simp)
    · exact fail_message _ _

/-- C3 (amended), at a concrete input: alice is registered and signs up
again. -/
theorem signup_registered_email_conflict_witness :
    (signup toyHasher (envAt 5 true) [alice] (some "a@x.com") (BodyValue.str "pw")
      (some "A")).2.status = 400 ∧
    (signup toyHasher (envAt 5 true) [alice] (some "a@x.com") (BodyValue.str "pw")
      (some "A")).2.success = some false ∧
    (signup toyHasher (envAt 5 true) [alice] (some "a@x.com") (BodyValue.str "pw")
      (some "A")).1 = [alice] ∧
    (signup toyHasher (envAt 5 true) [alice] (some "a@x.com") (BodyValue.str "pw")
      (some "A")).2.message = some "User already exists" :=
  have h := signup_registered_email_conflict toyHasher (envAt 5 true) [alice] "a@x.com"
    (BodyValue.str "pw") (some "A") ⟨alice, by simp, rfl⟩
  ⟨h.1, h.2.1, h.2.2.1, h.2.2.2.1 (by decide) (by decide) ⟨"A", rfl, by decide⟩⟩

/-! ## C4: signup with a fresh email -/

/-- C4 (as stated, refuted): for the draw r = 246366915615510 / 2^53 the exact
product 900000 * r lies 2^-47 below 24617 and rounds to 24617 in double
precision, so signup stores the code "124617", while the decimal string of
floor(100000 + 900000 * r) is "124616". -/
theorem signup_token_rounds_up_counterexample :
    envRoundsUp.random < 2 ^ 53 ∧
      (signup toyHasher envRoundsUp [] (some "a@x.com") (BodyValue.str "pw123456")
        (some "A")).2.status = 201 ∧
      (signup toyHasher envRoundsUp [] (some "a@x.com") (BodyValue.str "pw123456")
        (some "A")).1 =
        [{ email := "a@x.com"
           password := "h:pw123456"
           name := "A"
           lastlogin := none
           isVerified := false
           resetPasswordToken := none
           resetPasswordExpiresAt := none
           verificationToken := some "124617"
           verificationTokenExpiresAt := some 86400000 }] ∧
      toString (exactFloorNumber envRoundsUp.random) = "124616" := by
  decide

/-- C4 (amended): for every signup request with non-empty email, password and
name whose email is not in the user store, with the random draw r = k / 2^53
in [0,1), signup answers 201 and adds exactly one user to the store; that user
is unverified, stores the hash of the password, has as verificationToken the
decimal string of Math.floor(100000 + r * 900000) as double precision computes
it, which is floor(100000 + 900000 * r) or that number plus one and lies between
100000 and 999999, hence has exactly six decimal digits with no leading zero,
and has verificationTokenExpiresAt equal to the creation time plus
24*60*60*1000 milliseconds. -/
theorem signup_creates_unverified_user (H : Hasher) (env : Env) (s : Store)
    (email password name : String)
    (hemail : email ≠ "") (hpassword : password ≠ "") (hname : name ≠ "")
    (hfresh : ∀ u ∈ s, u.email ≠ email) (hrandom : env.random < 2 ^ 53) :
    (signup H env s (some email) (BodyValue.str password) (some name)).2.status = 201 ∧
    (signup H env s (some email) (BodyValue.str password) (some name)).2.success =
      some true ∧
    ∃ user : User,
      (signup H env s (some email) (BodyValue.str password) (some name)).1 = s ++ [user] ∧
      user.email = email ∧
      user.name = name ∧
      user.isVerified = false ∧
      user.password = H.hash password env.salt ∧
      user.verificationToken = some (toString (verificationTokenNumber env.random)) ∧
      exactFloorNumber env.random ≤ verificationTokenNumber env.random ∧
      verificationTokenNumber env.random ≤ exactFloorNumber env.random + 1 ∧
      100000 ≤ verificationTokenNumber env.random ∧
      verificationTokenNumber env.random ≤ 999999 ∧
      (toString (verificationTokenNumber env.random)).length = 6 ∧
      (toString (verificationTokenNumber env.random)).toList.all Char.isDigit = true ∧
      (toString (verificationTokenNumber env.random)).toList.head? ≠ some '0' ∧
      user.verificationTokenExpiresAt = some (env.now + 24 * 60 * 60 * 1000) ∧
      user.resetPasswordToken = none ∧
      user.resetPasswordExpiresAt = none ∧
      user.lastlogin = none := by
  have hnone : findOne (byEmail email) s = none := by
    rw [findOne_eq_none]
    intro u hu
    simpa [byEmail] using hfresh u hu
  obtain ⟨hlo, hhi⟩ := verificationTokenNumber_bounds env.random hrandom
  obtain ⟨hfl, hfu⟩ := verificationTokenNumber_floor env.random hrandom
  obtain ⟨hlen, hdig, hhead⟩ := toString_six_digits _ hlo hhi
  simp only [signup, truthy_some _ hemail, truthy_str _ hpassword, truthy_some _ hname, hnone,
    bcryptHash_str]
  exact ⟨trivial, rfl, _, rfl, rfl, rfl, rfl, rfl, rfl, hfl, hfu, hlo, hhi, hlen, hdig, hhead,
    rfl, rfl, rfl, rfl⟩

/-- C4 (amended), at a concrete input: the first signup on the empty store
with the draw 0. -/
theorem signup_creates_unverified_user_witness :
    (signup toyHasher (envAt 5 true) [] (some "a@x.com") (BodyValue.str "pw123456")
      (some "A")).2.status = 201 ∧
    (signup toyHasher (envAt 5 true) [] (some "a@x.com") (BodyValue.str "pw123456")
      (some "A")).1 =
      [{ email := "a@x.com"
         password := "h:pw123456"
         name := "A"
         lastlogin := none
         isVerified := false
         resetPasswordToken := none
         resetPasswordExpiresAt := none
         verificationToken := some "100000"
         verificationTokenExpiresAt := some 86400005 }] ∧
    100000 ≤ verificationTokenNumber (envAt 5 true).random ∧
    verificationTokenNumber (envAt 5 true).random ≤ 999999 :=
  have h := signup_creates_unverified_user toyHasher (envAt 5 true) [] "a@x.com" "pw123456"
    "A" (by decide) (by decide) (by decide) (fun u hu => by simp at hu) (by decide)
  ⟨h.1, by decide, by decide, by decide⟩

/-! ## C5: login -/

/-- C5 (as stated, refuted): a user signs up, asks for a reset link and resets
the password to the empty string, which resetPassword hashes and stores. The
store then holds a user with the supplied email whose stored hash the supplied
(empty) password verifies against, yet login answers 400 "All fields are
required". -/
theorem login_empty_password_counterexample :
    run toyHasher [] emptyPasswordTrace =
        [{ email := "b@x.com"
           password := "h:"
           name := "B"
           lastlogin := none
           isVerified := false
           resetPasswordToken := none
           resetPasswordExpiresAt := none
           verificationToken := some "100000"
           verificationTokenExpiresAt := some 86400000 }] ∧
      (∃ u ∈ run toyHasher [] emptyPasswordTrace,
        u.email = "b@x.com" ∧ toyHasher.compare "" u.password = true) ∧
      (login toyHasher (envAt 3 true) (run toyHasher [] emptyPasswordTrace)
        (some "b@x.com") (BodyValue.str "")).2.status = 400 ∧
      (login toyHasher (envAt 3 true) (run toyHasher [] emptyPasswordTrace)
        (some "b@x.com") (BodyValue.str "")).2.message = some "All fields are required" := by
  decide

/-- C5 (amended): for every user store in which emails are unique and every
login request with non-empty email and password, login answers 200 with
success=true if and only if the store holds a user with the supplied email
whose stored hash the supplied password verifies against; and on every
successful login the new store is the old one with that user's lastlogin set to
the current time, no other user and no other field of that user changed. -/
theorem login_succeeds_iff (H : Hasher) (env : Env) (s : Store)
    (email password : String)
    (hemail : email ≠ "") (hpassword : password ≠ "") (hunique : EmailUnique s) :
    (((login H env s (some email) (BodyValue.str password)).2.status = 200 ∧
        (login H env s (some email) (BodyValue.str password)).2.success = some true) ↔
      ∃ u ∈ s, u.email = email ∧ H.compare password u.password = true) ∧
    ((login H env s (some email) (BodyValue.str password)).2.status = 200 →
      ∃ id user,
        s[id]? = some user ∧ user.email = email ∧
        H.compare password user.password = true ∧
        (login H env s (some email) (BodyValue.str password)).1 =
          s.set id { user with lastlogin := some env.now } ∧
        (login H env s (some email) (BodyValue.str password)).1[id]? =
          some { user with lastlogin := some env.now } ∧
        (∀ k, k ≠ id →
          (login H env s (some email) (BodyValue.str password)).1[k]? = s[k]?) ∧
        (login H env s (some email) (BodyValue.str password)).1.length = s.length) := by
  cases hf : findOne (byEmail email) s with
  | none =>
    have hnone := (findOne_eq_none _ s).mp hf
    simp only [login, truthy_some _ hemail, truthy_str _ hpassword, bcryptCompare_str, hf, fail_status,
      fail_success]
    refine ⟨⟨fun h => absurd h.1 (by decide), ?_⟩, fun h => absurd h (by decide)⟩
    rintro ⟨u, hu, he, _⟩
    have := hnone u hu
    rw [(byEmail_eq_true email u).mpr he] at this
    exact absurd this (by decide)
  | some r =>
    obtain ⟨id, user⟩ := r
    obtain ⟨hmem, hlt⟩ := findOne_mem _ s id user hf
    obtain ⟨hget, hp, _⟩ := findOne_eq_some _ s id user hf
    have he : user.email = email := (byEmail_eq_true email user).mp hp
    by_cases hc : H.compare password user.password = true
    · simp only [login, truthy_some _ hemail, truthy_str _ hpassword, bcryptCompare_str, hf, hc, if_true]
      refine ⟨⟨fun _ => ⟨user, hmem, he, hc⟩, fun _ => ⟨trivial, rfl⟩⟩, fun _ => ?_⟩
      refine ⟨id, user, hget, he, hc, rfl, by simp [hlt], ?_, by simp⟩
      intro k hk
      rw [List.getElem?_set]
      simp [Ne.symm hk]
    · have hc2 : H.compare password user.password = false := by simpa using hc
      simp only [login, truthy_some _ hemail, truthy_str _ hpassword, bcryptCompare_str, hf, hc2,
        Bool.false_eq_true, if_false, fail_status, fail_success]
      refine ⟨⟨fun h => absurd h.1 (by decide), ?_⟩, fun h => absurd h (by decide)⟩
      rintro ⟨u, hu, hue, huc⟩
      have : u = user := emailUnique_eq s hunique u user hu hmem (hue.trans he.symm)
      subst this
      exact absurd huc hc

/-- C5 (amended), at a concrete input: alice logs in with her password at
time 7. -/
theorem login_succeeds_iff_witness :
    (login toyHasher (envAt 7 true) [alice] (some "a@x.com") (BodyValue.str "pw123456")).2.status = 200 ∧
      (login toyHasher (envAt 7 true) [alice] (some "a@x.com") (BodyValue.str "pw123456")).2.success =
        some true ∧
      ∃ id user,
        [alice][id]? = some user ∧ user.email = "a@x.com" ∧
        toyHasher.compare "pw123456" user.password = true ∧
        (login toyHasher (envAt 7 true) [alice] (some "a@x.com") (BodyValue.str "pw123456")).1 =
          [alice].set id { user with lastlogin := some (envAt 7 true).now } ∧
        (login toyHasher (envAt 7 true) [alice] (some "a@x.com") (BodyValue.str "pw123456")).1[id]? =
          some { user with lastlogin := some (envAt 7 true).now } ∧
        (∀ k, k ≠ id →
          (login toyHasher (envAt 7 true) [alice] (some "a@x.com") (BodyValue.str "pw123456")).1[k]? =
            [alice][k]?) ∧
        (login toyHasher (envAt 7 true) [alice] (some "a@x.com") (BodyValue.str "pw123456")).1.length =
          [alice].length :=
  have h := login_succeeds_iff toyHasher (envAt 7 true) [alice] "a@x.com" "pw123456"
    (by decide) (by decide) (by decide)
  have h200 := h.1.mpr ⟨alice, by simp, rfl, by decide⟩
  ⟨h200.1, h200.2, h.2 h200.1⟩

/-! ## C6: login failures do not tell whether the email is registered -/

/-- C6 (as stated, refuted), at two requests against the store holding alice
and against the empty store. With the numeric password 12345678, which is
truthy but not a string, the registered email reaches bcryptjs.compare, which
rejects, and login echoes "Illegal arguments: number, string", while the
unregistered email gets "Invalid credentials": the two responses differ. With
the empty password the two responses are equal, but the message is "All fields
are required", not "Invalid credentials". -/
theorem login_failure_counterexample :
    (∃ u ∈ [alice], u.email = "a@x.com") ∧
      (∀ u ∈ ([] : Store), u.email ≠ "a@x.com") ∧
      (login toyHasher (envAt 7 true) [alice] (some "a@x.com") (BodyValue.num 12345678)).2.message =
        some "Illegal arguments: number, string" ∧
      (login toyHasher (envAt 7 true) [] (some "a@x.com") (BodyValue.num 12345678)).2.message =
        some "Invalid credentials" ∧
      (login toyHasher (envAt 7 true) [alice] (some "a@x.com") (BodyValue.num 12345678)).2 ≠
        (login toyHasher (envAt 7 true) [] (some "a@x.com") (BodyValue.num 12345678)).2 ∧
      toyHasher.compare "" alice.password = false ∧
      (login toyHasher (envAt 7 true) [alice] (some "a@x.com") (BodyValue.str "")).2 =
        (login toyHasher (envAt 7 true) [] (some "a@x.com") (BodyValue.str "")).2 ∧
      (login toyHasher (envAt 7 true) [alice] (some "a@x.com") (BodyValue.str "")).2.message =
        some "All fields are required" := by
  decide

/-- C6 (amended): for every login request whose password is a string or is
missing or otherwise falsy, and any two user stores, one holding the email
with no password hash that the password verifies against and one not holding
the email at all, login with the same email and password returns identical
responses on the two stores (also at different times), with status 400 and
success=false, and changes neither store; that response carries the message
"Invalid credentials" when email and password are both non-empty, and "All
fields are required" otherwise. -/
theorem login_failure_indistinguishable (H : Hasher) (env1 env2 : Env)
    (s1 s2 : Store) (email : String) (password : BodyValue)
    (hpassword : password.truthy = true → ∃ p, password = BodyValue.str p)
    (hregistered : ∃ u ∈ s1, u.email = email)
    (hmismatch : ∀ u ∈ s1, u.email = email →
      ∀ p, password = BodyValue.str p → H.compare p u.password = false)
    (habsent : ∀ u ∈ s2, u.email ≠ email) :
    (login H env1 s1 (some email) password).2 = (login H env2 s2 (some email) password).2 ∧
    (login H env1 s1 (some email) password).2.status = 400 ∧
    (login H env1 s1 (some email) password).2.success = some false ∧
    (login H env1 s1 (some email) password).1 = s1 ∧
    (login H env2 s2 (some email) password).1 = s2 ∧
    (email ≠ "" → password.truthy = true →
      (login H env1 s1 (some email) password).2.message = some "Invalid credentials") ∧
    (email = "" ∨ password.truthy = false →
      (login H env1 s1 (some email) password).2.message =
        some "All fields are required") := by
  have h2 : findOne (byEmail email) s2 = none := by
    rw [findOne_eq_none]
    intro u hu
    simpa [byEmail] using habsent u hu
  obtain ⟨r, hr⟩ := findOne_byEmail_isSome s1 email hregistered
  obtain ⟨id, user⟩ := r
  obtain ⟨hmem, _⟩ := findOne_mem _ s1 id user hr
  obtain ⟨_, hp, _⟩ := findOne_eq_some _ s1 id user hr
  have hue := (byEmail_eq_true email user).mp hp
  by_cases hemail : email = ""
  · subst hemail
    simp [login, truthy, fail_status, fail_success, fail_message]
  · cases ht : password.truthy with
    | false =>
      simp [login, truthy, hemail, ht, fail_status, fail_success, fail_message]
    | true =>
      obtain ⟨p, rfl⟩ := hpassword ht
      have hc := hmismatch user hmem hue p rfl
      simp [login, truthy_some _ hemail, ht, h2, hr, hc, hemail, bcryptCompare_str,
        fail_status, fail_success, fail_message]

/-- C6 (amended), at a concrete input: a wrong password for alice, against the
store holding her and against the empty store. -/
theorem login_failure_indistinguishable_witness :
    (login toyHasher (envAt 7 true) [alice] (some "a@x.com") (BodyValue.str "wrong")).2 =
      (login toyHasher (envAt 8 true) [] (some "a@x.com") (BodyValue.str "wrong")).2 ∧
    (login toyHasher (envAt 7 true) [alice] (some "a@x.com") (BodyValue.str "wrong")).2.status =
      400 ∧
    (login toyHasher (envAt 7 true) [alice] (some "a@x.com") (BodyValue.str "wrong")).2.success =
      some false ∧
    (login toyHasher (envAt 7 true) [alice] (some "a@x.com") (BodyValue.str "wrong")).1 =
      [alice] ∧
    (login toyHasher (envAt 8 true) [] (some "a@x.com") (BodyValue.str "wrong")).1 = [] ∧
    (login toyHasher (envAt 7 true) [alice] (some "a@x.com") (BodyValue.str "wrong")).2.message =
      some "Invalid credentials" :=
  have h := login_failure_indistinguishable toyHasher (envAt 7 true) (envAt 8 true) [alice] []
    "a@x.com" (BodyValue.str "wrong") (fun _ => ⟨"wrong", rfl⟩) ⟨alice, by simp, rfl⟩
    (fun u hu _ p hp => by
      have hu2 : u = alice := by simpa using hu
      have hp2 : p = "wrong" := by
        have := BodyValue.str.inj hp
        exact this.symm
      subst hu2
      subst hp2
      decide)
    (fun u hu => by simp at hu)
  ⟨h.1, h.2.1, h.2.2.1, h.2.2.2.1, h.2.2.2.2.1, h.2.2.2.2.2.1 (by decide) (by decide)⟩

/-! ## C7: no response carries a password field -/

/-- C7: for every operation of the handler, every user store and every
request, the serialised response body has no property named password, neither
at the top level nor inside the user object; wherever a user object is
returned, it is the serialisation of a document of the resulting store with
its password entry left out. -/
theorem response_has_no_password (H : Hasher) (env : Env) (s : Store) (req : Request) :
    hasPasswordField (handle H env s req).2.body = false ∧
    ∀ o, (handle H env s req).2.user = some o →
      ∃ (id : Nat) (u : User), (handle H env s req).1[id]? = some u ∧
        o = stringifyObj (u.selectWithoutPassword id) := by
  cases req with
  | signup email password name =>
    simp only [handle, signup]
    split
    · split
      · exact ⟨(fail_no_password _ _).1, fun o h => by
          rw [(fail_no_password _ _).2] at h; exact absurd h (by simp)⟩
      · split
        · exact ⟨(fail_no_password _ _).1, fun o h => by
            rw [(fail_no_password _ _).2] at h; exact absurd h (by simp)⟩
        · refine ⟨(with_user_no_password _ _ _ _ _).1, fun o h => ?_⟩
          rw [(with_user_no_password _ _ _ _ _).2] at h
          exact ⟨s.length, _, by simp, (Option.some.inj h).symm⟩
    · exact ⟨(fail_no_password _ _).1, fun o h => by
        rw [(fail_no_password _ _).2] at h; exact absurd h (by simp)⟩
  | verifyEmail code =>
    simp only [handle, verifyEmail]
    split
    · exact ⟨(fail_no_password _ _).1, fun o h => by
        rw [(fail_no_password _ _).2] at h; exact absurd h (by simp)⟩
    · rename_i id user hf
      obtain ⟨_, hlt⟩ := findOne_mem _ s id user hf
      split
      · refine ⟨(with_user_no_password _ _ _ _ _).1, fun o h => ?_⟩
        rw [(with_user_no_password _ _ _ _ _).2] at h
        exact ⟨id, _, by simp [hlt], (Option.some.inj h).symm⟩
      · exact ⟨(fail_no_password _ _).1, fun o h => by
          rw [(fail_no_password _ _).2] at h; exact absurd h (by simp)⟩
  | login email password =>
    simp only [handle, login]
    split
    · split
      · exact ⟨(fail_no_password _ _).1, fun o h => by
          rw [(fail_no_password _ _).2] at h; exact absurd h (by simp)⟩
      · rename_i id user hf
        obtain ⟨_, hlt⟩ := findOne_mem _ s id user hf
        split
        · exact ⟨(fail_no_password _ _).1, fun o h => by
            rw [(fail_no_password _ _).2] at h; exact absurd h (by simp)⟩
        · split
          · refine ⟨(with_user_no_password _ _ _ _ _).1, fun o h => ?_⟩
            rw [(with_user_no_password _ _ _ _ _).2] at h
            exact ⟨id, _, by simp [hlt], (Option.some.inj h).symm⟩
          · exact ⟨(fail_no_password _ _).1, fun o h => by
              rw [(fail_no_password _ _).2] at h; exact absurd h (by simp)⟩
    · exact ⟨(fail_no_password _ _).1, fun o h => by
        rw [(fail_no_password _ _).2] at h; exact absurd h (by simp)⟩
  | logout =>
    simp [handle, logout, json, hasPasswordField, Response.user, List.lookup]
  | forgotPassword email =>
    simp only [handle, forgotPassword]
    split
    · exact ⟨(fail_no_password _ _).1, fun o h => by
        rw [(fail_no_password _ _).2] at h; exact absurd h (by simp)⟩
    · split
      · exact ⟨(fail_no_password _ _).1, fun o h => by
          rw [(fail_no_password _ _).2] at h; exact absurd h (by simp)⟩
      · simp [json, hasPasswordField, Response.user, List.lookup]
  | resetPassword token password =>
    simp only [handle, resetPassword]
    split
    · exact ⟨(fail_no_password _ _).1, fun o h => by
        rw [(fail_no_password _ _).2] at h; exact absurd h (by simp)⟩
    · split
      · exact ⟨(fail_no_password _ _).1, fun o h => by
          rw [(fail_no_password _ _).2] at h; exact absurd h (by simp)⟩
      · simp [json, hasPasswordField, Response.user, List.lookup]
  | checkAuth userId =>
    simp only [handle, checkAuth]
    split
    · exact ⟨(fail_no_password _ _).1, fun o h => by
        rw [(fail_no_password _ _).2] at h; exact absurd h (by simp)⟩
    · rename_i user hget
      have hnp := stringify_select_no_password userId user
      refine ⟨by simp [json, hasPasswordField, hnp], fun o h => ?_⟩
      simp only [json, Response.user, List.filterMap_cons, List.filterMap_nil, List.lookup] at h
      exact ⟨userId, user, hget, by simpa using h.symm⟩

/-! ## C8: consumed and expired tokens -/

/-- C8 (as stated, refuted), at two traces with non-decreasing times. After a
signup at time 0 and a logout at time 86400000 the current time has reached
the expiry of the verification code, and the code and its expiry are still
stored. After two signups that drew the same code, verifyEmail accepts that
code at time 2000 and accepts it again at time 3000. -/
theorem expired_token_not_cleared_counterexample :
    timesNonDecreasing staleTrace ∧
      run toyHasher [] staleTrace =
        [{ email := "a@x.com"
           password := "h:pw123456"
           name := "A"
           lastlogin := none
           isVerified := false
           resetPasswordToken := none
           resetPasswordExpiresAt := none
           verificationToken := some "100000"
           verificationTokenExpiresAt := some 86400000 }] ∧
      (∃ u ∈ run toyHasher [] staleTrace, ∃ token expiry,
        u.verificationToken = some token ∧
        u.verificationTokenExpiresAt = some expiry ∧
        expiry ≤ 86400000) ∧
      timesNonDecreasing (sharedCodeTrace ++
        [(envAt 2000 true, Request.verifyEmail "100000"),
         (envAt 3000 true, Request.verifyEmail "100000")]) ∧
      (verifyEmail (envAt 2000 true) (run toyHasher [] sharedCodeTrace) "100000").2.status =
        200 ∧
      (verifyEmail (envAt 3000 true)
        (verifyEmail (envAt 2000 true) (run toyHasher [] sharedCodeTrace) "100000").1
        "100000").2.status = 200 := by
  refine ⟨by decide, by decide, ?_, by decide, by decide, by decide⟩
  exact ⟨{ alice with
            verificationToken := some "100000"
            verificationTokenExpiresAt := some 86400000 },
    by decide, "100000", 86400000, rfl, rfl, Nat.le_refl _⟩

/-- C8 (amended): in every state of the user store reachable from the empty
store by any sequence of the handler's operations, with a token meaning the
token stored for one user:
(1) every user's verification token is stored together with its expiry (both
set or both cleared), and so is the reset token;
(2) when verifyEmail answers 200 it has matched a user, and whenever
verifyEmail matches a user, that user held the code with an expiry later than
the current time; in every later state that user's verification token and
expiry are cleared and verifyEmail never matches that user again, whatever the
code and the time: a user's verification token is accepted at most once (the
same code held by another user can still be accepted);
(3) when resetPassword answers 200, the user it matched held the token with an
expiry later than the current time; that user's reset token and expiry are
cleared and resetPassword does not match that user again, in every later state
reached without a forgotPassword for that user's email;
(4) a user whose token has an expiry not later than the current time is never
the user that verifyEmail or resetPassword matches, although the token stays
stored;
(5) when every user holding the supplied code or token has an expiry not later
than the current time, the request is answered 400 and the store stays as it
is. -/
theorem consumed_tokens_cleared (H : Hasher) (trace : List (Env × Request)) (env : Env) :
    (∀ u ∈ run H [] trace, TokensPaired u) ∧
    (∀ code, (verifyEmail env (run H [] trace) code).2.status = 200 →
      ∃ id, verifyEmailMatch env (run H [] trace) code = some id) ∧
    (∀ code id, verifyEmailMatch env (run H [] trace) code = some id →
      ∃ user : User,
        (run H [] trace)[id]? = some user ∧
        user.verificationToken = some code ∧
        (∃ t, user.verificationTokenExpiresAt = some t ∧ env.now < t) ∧
        ∀ later : List (Env × Request),
          (∃ u, (run H (verifyEmail env (run H [] trace) code).1 later)[id]? = some u ∧
            u.verificationToken = none ∧ u.verificationTokenExpiresAt = none) ∧
          ∀ (env2 : Env) (code2 : String),
            verifyEmailMatch env2 (run H (verifyEmail env (run H [] trace) code).1 later)
              code2 ≠ some id) ∧
    (∀ token password,
      (resetPassword H env (run H [] trace) token password).2.status = 200 →
      ∃ (id : Nat) (user : User),
        resetPasswordMatch env (run H [] trace) token = some id ∧
        (run H [] trace)[id]? = some user ∧
        user.resetPasswordToken = some token ∧
        (∃ t, user.resetPasswordExpiresAt = some t ∧ env.now < t) ∧
        ∀ later : List (Env × Request),
          (∀ x ∈ later, x.2 ≠ Request.forgotPassword (some user.email)) →
          (∃ u, (run H (resetPassword H env (run H [] trace) token password).1 later)[id]? =
              some u ∧
            u.resetPasswordToken = none ∧ u.resetPasswordExpiresAt = none) ∧
          ∀ (env2 : Env) (token2 : String),
            resetPasswordMatch env2
              (run H (resetPassword H env (run H [] trace) token password).1 later)
              token2 ≠ some id) ∧
    (∀ (code : String) (id : Nat) (user : User), (run H [] trace)[id]? = some user →
      (∀ e, user.verificationTokenExpiresAt = some e → e ≤ env.now) →
      verifyEmailMatch env (run H [] trace) code ≠ some id) ∧
    (∀ (token : String) (id : Nat) (user : User), (run H [] trace)[id]? = some user →
      (∀ e, user.resetPasswordExpiresAt = some e → e ≤ env.now) →
      resetPasswordMatch env (run H [] trace) token ≠ some id) ∧
    (∀ code,
      (∀ u ∈ run H [] trace, u.verificationToken = some code →
        ∀ e, u.verificationTokenExpiresAt = some e → e ≤ env.now) →
      verifyEmail env (run H [] trace) code =
        (run H [] trace, fail 400 "Invalid or expired verification code")) ∧
    (∀ token password,
      (∀ u ∈ run H [] trace, u.resetPasswordToken = some token →
        ∀ e, u.resetPasswordExpiresAt = some e → e ≤ env.now) →
      resetPassword H env (run H [] trace) token password =
        (run H [] trace, fail 400 "Invalid or expired reset token")) := by
  refine ⟨?_, ?_, ?_, ?_, ?_, ?_, fun code h => verifyEmail_rejects env _ code h,
    fun token password h => resetPassword_rejects H env _ token password h⟩
  · exact run_invariant H (fun s => ∀ u ∈ s, TokensPaired u)
      (fun env s req h => tokensPaired_step H env s req h) trace [] (by simp)
  · intro code hst
    generalize run H [] trace = s at hst ⊢
    cases hf : findOne (byVerificationToken code env.now) s with
    | none =>
      simp only [verifyEmail, hf, fail_status] at hst
      exact absurd hst (by decide)
    | some r => exact ⟨r.1, by simp [verifyEmailMatch, hf]⟩
  · intro code id hm
    generalize run H [] trace = s at hm ⊢
    obtain ⟨user, hf⟩ := verifyEmailMatch_eq_some env s code id hm
    obtain ⟨_, hlt⟩ := findOne_mem _ s id user hf
    obtain ⟨hget, hp, _⟩ := findOne_eq_some _ s id user hf
    have hp2 := (byVerificationToken_eq_true code env.now user).mp hp
    have hnew : (verifyEmail env s code).1[id]? =
        some { user with
                isVerified := true
                verificationToken := none
                verificationTokenExpiresAt := none } := by
      simp only [verifyEmail, hf]
      split <;> simp [hlt]
    refine ⟨user, hget, hp2.1, hp2.2, fun later => ?_⟩
    have hlater := run_invariant H
      (fun s2 => ∃ u, s2[id]? = some u ∧ u.verificationToken = none ∧
        u.verificationTokenExpiresAt = none)
      (fun env2 s2 req h => verification_cleared_step H env2 s2 req id h)
      later _ ⟨_, hnew, rfl, rfl⟩
    refine ⟨hlater, fun env2 code2 => ?_⟩
    obtain ⟨u, hu, hu1, _⟩ := hlater
    exact verifyEmailMatch_ne env2 _ code2 id u hu (by simp [byVerificationToken, hu1])
  · intro token password hst
    generalize run H [] trace = s at hst ⊢
    cases hf : findOne (byResetToken token env.now) s with
    | none =>
      simp only [resetPassword, hf, fail_status] at hst
      exact absurd hst (by decide)
    | some r =>
      obtain ⟨id, user⟩ := r
      obtain ⟨_, hlt⟩ := findOne_mem _ s id user hf
      obtain ⟨hget, hp, _⟩ := findOne_eq_some _ s id user hf
      have hp2 := (byResetToken_eq_true token env.now user).mp hp
      cases hh : bcryptHash H password env.salt with
      | error message =>
        simp only [resetPassword, hf, hh, fail_status] at hst
        exact absurd hst (by decide)
      | ok hashed =>
        have hnew : (resetPassword H env s token password).1[id]? =
            some { user with
                    password := hashed
                    resetPasswordToken := none
                    resetPasswordExpiresAt := none } := by
          simp only [resetPassword, hf, hh]
          simp [hlt]
        refine ⟨id, user, by simp [resetPasswordMatch, hf], hget, hp2.1, hp2.2,
          fun later hno => ?_⟩
        have hlater := run_invariant_where H
          (fun s2 => ∃ u, s2[id]? = some u ∧ u.email = user.email ∧
            u.resetPasswordToken = none ∧ u.resetPasswordExpiresAt = none)
          (fun req => req ≠ Request.forgotPassword (some user.email))
          (fun env2 s2 req hq h => reset_cleared_step H env2 s2 req id user.email hq h)
          later hno _ ⟨_, hnew, rfl, rfl, rfl⟩
        obtain ⟨u, hu, _, hu1, hu2⟩ := hlater
        refine ⟨⟨u, hu, hu1, hu2⟩, fun env2 token2 => ?_⟩
        exact resetPasswordMatch_ne env2 _ token2 id u hu (by simp [byResetToken, hu1])
  · intro code id user hget hexp
    exact verifyEmailMatch_ne env _ code id user hget
      (by simp [byVerificationToken, gt_expired _ _ hexp])
  · intro token id user hget hexp
    exact resetPasswordMatch_ne env _ token id user hget
      (by simp [byResetToken, gt_expired _ _ hexp])

/-! ## C9: email uniqueness is preserved -/

/-- C9: if no two users of the store share an email (compared as strings,
case-sensitively) before a request is handled, then no two users share an
email after it, for every operation and every request. -/
theorem emailUnique_preserved (H : Hasher) (env : Env) (s : Store) (req : Request)
    (h : EmailUnique s) : EmailUnique (handle H env s req).1 := by
  rcases handle_store_cases H env s req with hs | ⟨u, hs, hfresh, _⟩ |
    ⟨id, user, u, hget, hs, he, _⟩
  · rw [hs]; exact h
  · rw [hs]
    unfold EmailUnique at *
    rw [List.map_append, List.nodup_append]
    refine ⟨h, by simp, ?_⟩
    intro a ha hb
    simp only [List.map_cons, List.map_nil, List.mem_singleton] at hb
    obtain ⟨v, hv, hva⟩ := List.mem_map.mp ha
    exact hfresh v hv (hva.trans hb)
  · rw [hs]
    unfold EmailUnique at *
    rw [map_email_set s id user u hget he]
    exact h

/-- C9, at a concrete input: a second signup with a new email on the store
holding alice. -/
theorem emailUnique_preserved_witness :
    EmailUnique [alice] ∧
      EmailUnique (handle toyHasher (envAt 5 true) [alice]
        (Request.signup (some "b@x.com") (BodyValue.str "pw") (some "B"))).1 :=
  ⟨by decide, emailUnique_preserved toyHasher (envAt 5 true) [alice]
    (Request.signup (some "b@x.com") (BodyValue.str "pw") (some "B")) (by decide)⟩

/-! ## C10: the signup response carries the verification code -/

/-- C10: for every successful signup (status 201), the user object of the
response is the stored document of the new user with only the password left
out; it has a verificationToken property whose value is the verification token
stored for the new user, and verifyEmail accepts that value on the resulting
store at any time before the expiry (the welcome mail going out). -/
theorem signup_response_discloses_code (H : Hasher) (env : Env) (s : Store)
    (email : Option String) (password : BodyValue) (name : Option String)
    (hcreated : (signup H env s email password name).2.status = 201) :
    ∃ (user : User) (o : JObj) (token : String),
      (signup H env s email password name).1 = s ++ [user] ∧
      (signup H env s email password name).2.user = some o ∧
      o = stringifyObj (user.selectWithoutPassword s.length) ∧
      user.verificationToken = some token ∧
      o.lookup "verificationToken" = some (JAtom.str token) ∧
      o.lookup "password" = none ∧
      ∀ env2 : Env, env2.now < env.now + 24 * 60 * 60 * 1000 →
        env2.welcomeEmailSent = true →
        (verifyEmail env2 (signup H env s email password name).1 token).2.status = 200 := by
  rcases signup_cases H env s email password name with ⟨_, h400, _⟩ | h
  · rw [h400] at hcreated
    exact absurd hcreated (by decide)
  · obtain ⟨e, p, n, _, _, _, _, _, _, _, hs, _, hu⟩ := h
    refine ⟨_, _, newVerificationToken env.random, hs, hu, rfl, rfl, ?_, ?_, ?_⟩
    · simp [stringifyObj, User.selectWithoutPassword, User.doc, optStr, optNum, List.lookup]
    · simp [stringifyObj, User.selectWithoutPassword, User.doc, optStr, optNum, List.lookup]
    · intro env2 hnow hmail
      rw [hs]
      apply verifyEmail_status_of_match env2 _ _ hmail
      refine ⟨_, List.mem_append_right _ (List.mem_singleton_self _), ?_⟩
      rw [byVerificationToken_eq_true]
      exact ⟨rfl, _, rfl, hnow⟩

/-- C10, at a concrete input: a signup on the empty store. -/
theorem signup_response_discloses_code_witness :
    ∃ (user : User) (o : JObj) (token : String),
      (signup toyHasher (envAt 5 true) [] (some "a@x.com") (BodyValue.str "pw123456") (some "A")).1 =
        [] ++ [user] ∧
      (signup toyHasher (envAt 5 true) [] (some "a@x.com") (BodyValue.str "pw123456") (some "A")).2.user =
        some o ∧
      o = stringifyObj (user.selectWithoutPassword ([] : Store).length) ∧
      user.verificationToken = some token ∧
      o.lookup "verificationToken" = some (JAtom.str token) ∧
      o.lookup "password" = none ∧
      ∀ env2 : Env, env2.now < (envAt 5 true).now + 24 * 60 * 60 * 1000 →
        env2.welcomeEmailSent = true →
        (verifyEmail env2
          (signup toyHasher (envAt 5 true) [] (some "a@x.com") (BodyValue.str "pw123456") (some "A")).1
          token).2.status = 200 :=
  signup_response_discloses_code toyHasher (envAt 5 true) [] (some "a@x.com")
    (BodyValue.str "pw123456") (some "A") (by decide)

end AuthController
